import Mathlib

/-!
Shallow embedding of the TunnelDesigner geometry engine (src/unnamed/part_003)
and proofs about it.  JavaScript numbers are modelled as real numbers, JS
`Math.atan2 y x` as `Complex.arg ⟨x, y⟩` (same branch cut and `atan2 0 0 = 0`),
`Math.hypot` as the square root of the sum of squares, and JS falsy checks on
numbers as comparison with `0`.  Option-returning functions model JS `null`.
-/

open Real

namespace TunnelDesigner

structure Point2 where
  x : ℝ
  y : ℝ

structure Vec3 where
  x : ℝ
  y : ℝ
  z : ℝ

inductive Segment where
  | line (start stop : Point2)
  | arc (start stop : Point2) (radius : ℝ)

def segStart : Segment → Point2
  | .line s _ => s
  | .arc s _ _ => s

def segEnd : Segment → Point2
  | .line _ e => e
  | .arc _ e _ => e

structure Profile where
  id : String
  segments : List Segment

structure ProfileAssignment where
  length : ℝ
  profileId : String

structure HeightAssignment where
  length : ℝ
  height : ℝ

structure SampleOptions where
  maxChord : ℝ
  minArcSteps : ℝ

structure MergedPair where
  angle : ℝ
  point1 : Point2
  point2 : Point2

noncomputable section

/-- Model of `Math.hypot(x, y)`. -/
def hypot2 (x y : ℝ) : ℝ := Real.sqrt (x ^ 2 + y ^ 2)

/-- Model of `Math.hypot(x, y, z)`. -/
def hypot3 (x y z : ℝ) : ℝ := Real.sqrt (x ^ 2 + y ^ 2 + z ^ 2)

/-- Model of `Math.atan2(y, x)`: the argument of the complex number `x + y i`. -/
def atan2 (y x : ℝ) : ℝ := Complex.arg ⟨x, y⟩

/-- Embedding of `calculateArcCenter(start, end, radius)`. -/
def calculateArcCenter (start stop : Point2) (radius : ℝ) : Option Point2 :=
  let R := |radius|
  if R = 0 then none
  else
    let dx := stop.x - start.x
    let dy := stop.y - start.y
    let dist := Real.sqrt (dx ^ 2 + dy ^ 2)
    if dist > 2 * R ∨ dist = 0 then none
    else
      let midX := (start.x + stop.x) / 2
      let midY := (start.y + stop.y) / 2
      let h := Real.sqrt (R ^ 2 - (dist / 2) ^ 2)
      let perpX := -dy / dist
      let perpY := dx / dist
      let sign : ℝ := if radius ≥ 0 then 1 else -1
      some ⟨midX + sign * h * perpX, midY + sign * h * perpY⟩

/-- The signed angular sweep computation that the source inlines identically
in `getPositionAtLength`, `sampleProfilePoints` and `collectSampleLengths`:
`endA - startA`, pushed into `[0, 2π)` for positive radius and `(-2π, 0]` for
negative radius by the two conditional `± 2π` adjustments. -/
def arcAngleSpan (s e c : Point2) (r : ℝ) : ℝ :=
  let startA := atan2 (s.y - c.y) (s.x - c.x)
  let endA := atan2 (e.y - c.y) (e.x - c.x)
  let d0 := endA - startA
  let d1 := if r > 0 ∧ d0 < 0 then d0 + 2 * π else d0
  if r < 0 ∧ d1 > 0 then d1 - 2 * π else d1

/-- The loop body of `getPositionAtLength`: walks the segment list consuming
`remaining`; when the list is exhausted returns the end point of the original
list's last segment (the code's fallback `last?.end`). -/
def positionWalk (lastEnd : Point2) : List Segment → ℝ → Point2
  | [], _ => lastEnd
  | seg :: rest, remaining =>
    match seg with
    | .line s e =>
      let dx := e.x - s.x
      let dy := e.y - s.y
      let L := hypot2 dx dy
      if remaining ≤ L then
        let t := if L = 0 then 0 else remaining / L
        ⟨s.x + dx * t, s.y + dy * t⟩
      else positionWalk lastEnd rest (remaining - L)
    | .arc s e r =>
      if r = 0 then positionWalk lastEnd rest remaining
      else
        match calculateArcCenter s e r with
        | none => positionWalk lastEnd rest remaining
        | some c =>
          let R := |r|
          let startA := atan2 (s.y - c.y) (s.x - c.x)
          let angleDiff := arcAngleSpan s e c r
          let arcLen := |angleDiff| * R
          if remaining ≤ arcLen then
            let t := if arcLen = 0 then 0 else remaining / arcLen
            let ang := startA + angleDiff * t
            ⟨c.x + R * Real.cos ang, c.y + R * Real.sin ang⟩
          else positionWalk lastEnd rest (remaining - arcLen)

/-- Embedding of `getPositionAtLength(axisData, len)`. -/
def getPositionAtLength (axisData : List Segment) (len : ℝ) : Point2 :=
  match axisData.getLast? with
  | none => ⟨0, 0⟩
  | some last => positionWalk (segEnd last) axisData len

/-- The length contribution of one segment inside `computeAxisTotalLength`'s
reduce (line: chord length; arc: `|r| * 2 * asin (min 1 (chord / (2|r|)))`,
with zero-radius and zero-chord arcs contributing `0`). -/
def segLength : Segment → ℝ
  | .line s e => hypot2 (e.x - s.x) (e.y - s.y)
  | .arc s e r =>
    if r = 0 then 0
    else
      let chord := hypot2 (e.x - s.x) (e.y - s.y)
      if chord = 0 then 0
      else |r| * (2 * Real.arcsin (min 1 (chord / (2 * |r|))))

/-- Embedding of `computeAxisTotalLength(axisData)`. -/
def computeAxisTotalLength (axisData : List Segment) : ℝ :=
  axisData.foldl (fun sum seg => sum + segLength seg) 0

/-- The scan loop of `getHeightAtLength`: starting from `chosen = sorted[0]`,
advance `chosen` while the next entry's length is `≤ len + 1e-6`; the first
entry that is not becomes `current` and the loop breaks. -/
def heightScan (len : ℝ) : HeightAssignment → List HeightAssignment →
    HeightAssignment × Option HeightAssignment
  | chosen, [] => (chosen, none)
  | chosen, h :: t =>
    if h.length ≤ len + 1e-6 then heightScan len h t else (chosen, some h)

/-- Embedding of `getHeightAtLength(heightAssignments, len)`. -/
def getHeightAtLength (heightAssignments : List HeightAssignment) (len : ℝ) : ℝ :=
  match List.insertionSort (fun a b => a.length ≤ b.length) heightAssignments with
  | [] => 0
  | c0 :: rest =>
    let sc := heightScan len c0 rest
    match sc.2 with
    | none => sc.1.height
    | some cur =>
      if sc.1.length ≥ len then sc.1.height
      else (len - sc.1.length) / (cur.length - sc.1.length) * (cur.height - sc.1.height) + sc.1.height

/-- Embedding of `getAxis3DPointsAtLength(axisData, heightAssignments, length)`. -/
def getAxis3DPointsAtLength (axisData : List Segment)
    (heightAssignments : List HeightAssignment) (length0 : ℝ) : Vec3 :=
  let totalLength := computeAxisTotalLength axisData
  let clamped := max 0 (min length0 totalLength)
  let pos2d := getPositionAtLength axisData clamped
  let h := getHeightAtLength heightAssignments clamped
  ⟨pos2d.x, h, pos2d.y⟩

/-- Embedding of `normalizeVec3(v)`. -/
def normalizeVec3 (v : Vec3) : Vec3 :=
  let len := hypot3 v.x v.y v.z
  if len = 0 then ⟨0, 0, 0⟩ else ⟨v.x / len, v.y / len, v.z / len⟩

/-- Embedding of `cross(a, b)`. -/
def cross (a b : Vec3) : Vec3 :=
  ⟨a.y * b.z - a.z * b.y, a.z * b.x - a.x * b.z, a.x * b.y - a.y * b.x⟩

/-- Embedding of `dot(a, b)`. -/
def dot (a b : Vec3) : ℝ := a.x * b.x + a.y * b.y + a.z * b.z

structure Frame3 where
  xAxis : Vec3
  yAxis : Vec3
  direction : Vec3

/-- Embedding of `buildPerpendicularAxes(p1, p2)`. -/
def buildPerpendicularAxes (p1 p2 : Vec3) : Frame3 :=
  let dir := normalizeVec3 ⟨p2.x - p1.x, p2.y - p1.y, p2.z - p1.z⟩
  let globalX : Vec3 := ⟨1, 0, 0⟩
  let projLen := dot globalX dir
  if projLen < 1e-6 then
    let xAxis := globalX
    let yAxis := normalizeVec3 (cross dir globalX)
    if yAxis.y < 0 then
      ⟨⟨-xAxis.x, -xAxis.y, -xAxis.z⟩, ⟨-yAxis.x, -yAxis.y, -yAxis.z⟩, dir⟩
    else ⟨xAxis, yAxis, dir⟩
  else
    let xAxis := normalizeVec3 ⟨-dir.z, 0, dir.x⟩
    let yAxis := normalizeVec3 (cross dir xAxis)
    if yAxis.y < 0 then
      ⟨⟨-xAxis.x, -xAxis.y, -xAxis.z⟩, ⟨-yAxis.x, -yAxis.y, -yAxis.z⟩, dir⟩
    else ⟨xAxis, yAxis, dir⟩

/-- The points contributed by one segment in `sampleProfilePoints`'s forEach
(not counting the very first `seg.start` pushed at `idx === 0`): a line, a
zero-radius arc, or a degenerate arc contributes its end point; a proper arc
contributes the points at `t = i / steps` for integer `i` running from `1`
while `i ≤ steps` (so `⌊steps⌋` points, `steps` itself being a real). -/
def samplePointsOfSeg (maxChord minArcSteps : ℝ) : Segment → List Point2
  | .line _ e => [e]
  | .arc s e r =>
    if r = 0 then [e]
    else
      match calculateArcCenter s e r with
      | none => [e]
      | some c =>
        let R := |r|
        let startA := atan2 (s.y - c.y) (s.x - c.x)
        let angleDiff := arcAngleSpan s e c r
        let arcLength := |angleDiff| * R
        let steps := max minArcSteps ((⌈arcLength / max 0.1 maxChord⌉ : ℤ) : ℝ)
        (List.range (⌊steps⌋).toNat).map fun i =>
          let t := ((i : ℝ) + 1) / steps
          let ang := startA + angleDiff * t
          ⟨c.x + R * Real.cos ang, c.y + R * Real.sin ang⟩

/-- The closing step of `sampleProfilePoints`: if there is more than one point
and the first and last differ by more than `1e-6`, append a copy of the first. -/
def closeLoop : List Point2 → List Point2
  | [] => []
  | [p] => [p]
  | first :: p :: rest =>
    let last := (p :: rest).getLast (List.cons_ne_nil p rest)
    if hypot2 (first.x - last.x) (first.y - last.y) > 1e-6 then
      (first :: p :: rest) ++ [first]
    else first :: p :: rest

/-- Embedding of `sampleProfilePoints(profile, options)`. -/
def sampleProfilePoints (profile : Profile) (options : SampleOptions) : List Point2 :=
  match profile.segments with
  | [] => []
  | seg0 :: _ =>
    let maxChord := if options.maxChord = 0 then 5 else options.maxChord
    let minArcSteps := if options.minArcSteps = 0 then 4 else options.minArcSteps
    let pts := profile.segments.foldl
      (fun acc seg => acc ++ samplePointsOfSeg maxChord minArcSteps seg) [segStart seg0]
    closeLoop pts

/-- Embedding of `raySegmentIntersection(origin, dir, a, b)` (note that, as in
the source, the determinant formulas for `t` and `u` use the segment points
`a`, `b` as absolute coordinates, not relative to `origin`; only the returned
point adds `origin`). -/
def raySegmentIntersection (origin dir a b : Point2) : Option (ℝ × Point2) :=
  let sx := b.x - a.x
  let sy := b.y - a.y
  let denom := dir.x * sy - dir.y * sx
  if |denom| < 1e-9 then none
  else
    let t := (a.x * sy - a.y * sx) / denom
    let u := (a.x * dir.y - a.y * dir.x) / denom
    if t < -1e-9 ∨ u < -1e-9 ∨ u > 1 + 1e-9 then none
    else some (t, ⟨origin.x + dir.x * t, origin.y + dir.y * t⟩)

/-- Embedding of `compute2DCentroid(points)`. -/
def compute2DCentroid (points : List Point2) : Point2 :=
  match points with
  | [] => ⟨0, 0⟩
  | _ :: _ =>
    let n := (points.length : ℝ)
    ⟨(points.map Point2.x).sum / n, (points.map Point2.y).sum / n⟩

/-- The update step of `intersectProfileWithRay`'s loop: the JS
`if (hit && hit.t >= 0 && (best === null || hit.t < best.t)) best = hit`. -/
def bestUpdate (hit best : Option (ℝ × Point2)) : Option (ℝ × Point2) :=
  match hit, best with
  | some h, none => if 0 ≤ h.1 then some h else none
  | some h, some b => if 0 ≤ h.1 ∧ h.1 < b.1 then some h else some b
  | none, b => b

/-- The best-tracking loop of `intersectProfileWithRay`: scan consecutive point
pairs, keeping the hit with the smallest parameter `t ≥ 0` (first found wins
ties, via the strict `hit.t < best.t` test). -/
def bestHitLoop (origin dir : Point2) :
    List (Point2 × Point2) → Option (ℝ × Point2) → Option (ℝ × Point2)
  | [], best => best
  | ab :: rest, best =>
    bestHitLoop origin dir rest
      (bestUpdate (raySegmentIntersection origin dir ab.1 ab.2) best)

/-- Embedding of `intersectProfileWithRay(targetPoint, sampledPoints)`: the ray
origin is the centroid of `sampledPoints` and the direction is the
normalisation of `targetPoint` itself. -/
def intersectProfileWithRay (targetPoint : Point2) (sampledPoints : List Point2) :
    Option Point2 :=
  match sampledPoints with
  | [] => none
  | p0 :: prest =>
    if targetPoint.x = 0 ∧ targetPoint.y = 0 then none
    else
      let pts := p0 :: prest
      let centroid := compute2DCentroid pts
      let mag := hypot2 targetPoint.x targetPoint.y
      if mag < 1e-9 then none
      else
        let dir : Point2 := ⟨targetPoint.x / mag, targetPoint.y / mag⟩
        match bestHitLoop centroid dir (pts.zip pts.tail) none with
        | none => none
        | some best => some best.2

/-- Spec-described ray/segment solve, for comparison with the code: the ray
starts at `origin` with direction `dir`; the closed-form 2D solve measures the
segment relative to the ray origin and accepts a strictly positive ray
parameter with segment parameter in `[0, 1]`.  (Stated from the spec's words
"form the ray from A's centroid through `p` … closed-form 2D ray-vs-segment
solve"; the code's `raySegmentIntersection` instead measures `a` from the
coordinate origin.) -/
def specRaySegHit (origin dir a b : Point2) : Option ℝ :=
  let sx := b.x - a.x
  let sy := b.y - a.y
  let denom := dir.x * sy - dir.y * sx
  if denom = 0 then none
  else
    let t := ((a.x - origin.x) * sy - (a.y - origin.y) * sx) / denom
    let u := ((a.x - origin.x) * dir.y - (a.y - origin.y) * dir.x) / denom
    if 0 < t ∧ 0 ≤ u ∧ u ≤ 1 then some t else none

/-- Spec-described correspondence for one point `p` of polyline A: the ray
from A's centroid through `p`, intersected with polyline B's segment
sequence, smallest positive ray-parameter wins. -/
def specRayCorrespondence (centroidA p : Point2) (ptsB : List Point2) : Option Point2 :=
  let dir : Point2 := ⟨p.x - centroidA.x, p.y - centroidA.y⟩
  let hits := (ptsB.zip ptsB.tail).filterMap fun ab => specRaySegHit centroidA dir ab.1 ab.2
  match hits.min? with
  | none => none
  | some t => some ⟨centroidA.x + dir.x * t, centroidA.y + dir.y * t⟩

/-- Model of JS `%` (remainder with truncation toward zero). -/
def jsMod (x y : ℝ) : ℝ :=
  x - y * (((if 0 ≤ x / y then ⌊x / y⌋ else ⌈x / y⌉) : ℤ) : ℝ)

/-- Embedding of `normalizeAngle(angle)`. -/
def normalizeAngle (angle : ℝ) : ℝ :=
  let twoPi := 2 * π
  let a := jsMod angle twoPi
  if a < 0 then a + twoPi else a

/-- One `collect` pass of `mergeProfilesByAngle`: for each source point, cast
through `intersectProfileWithRay` and record a merged pair when it hits. -/
def collectPass (sourcePts otherPts : List Point2) (isSourceProfile1 : Bool) :
    List MergedPair :=
  sourcePts.filterMap fun pt =>
    let centroid := compute2DCentroid sourcePts
    let rpt : Point2 := ⟨pt.x - centroid.x, pt.y - centroid.y⟩
    match intersectProfileWithRay rpt otherPts with
    | none => none
    | some m =>
      if isSourceProfile1 then some ⟨normalizeAngle (atan2 pt.y pt.x), pt, m⟩
      else some ⟨normalizeAngle (atan2 m.y m.x), m, pt⟩

/-- Embedding of `mergeProfilesByAngle(profile1, profile2, options)`; the final
JS `sort` (stable, by ascending angle) is modelled by stable insertion sort. -/
def mergeProfilesByAngle (profile1 profile2 : Profile) (options : SampleOptions) :
    List MergedPair :=
  let pts1 := sampleProfilePoints profile1 options
  let pts2 := sampleProfilePoints profile2 options
  List.insertionSort (fun a b => a.angle ≤ b.angle)
    (collectPass pts1 pts2 true ++ collectPass pts2 pts1 false)

/-- Embedding of `findProfile(profiles, id)`. -/
def findProfile (profiles : List Profile) (id : String) : Option Profile :=
  profiles.find? fun p => p.id == id

/-- The bracket-searching loop of `interpolateProfileAtLength`: first adjacent
pair `(a, b)` of the sorted list with `a.length ≤ len ≤ b.length`. -/
def findBracket (len : ℝ) : List ProfileAssignment →
    Option (ProfileAssignment × ProfileAssignment)
  | [] => none
  | [_] => none
  | a :: b :: rest =>
    if a.length ≤ len ∧ len ≤ b.length then some (a, b)
    else findBracket len (b :: rest)

/-- Embedding of `interpolateProfileAtLength(length, profileAssignments,
profiles, options, isStart)`. -/
def interpolateProfileAtLength (length0 : ℝ) (profileAssignments : List ProfileAssignment)
    (profiles : List Profile) (options : SampleOptions) (isStart : Bool) :
    Option (List Point2) :=
  match List.insertionSort (fun a b => a.length ≤ b.length) profileAssignments with
  | [] => none
  | s0 :: srest =>
    let len := if isStart then length0 else length0 - 1e-8
    let slast := (s0 :: srest).getLast (List.cons_ne_nil s0 srest)
    let pn0 := (findBracket len (s0 :: srest)).getD (s0, slast)
    let pn1 := if len < s0.length - 1e-9 then (s0, s0) else pn0
    let pn := if len > slast.length + 1e-9 then (slast, slast) else pn1
    match findProfile profiles pn.1.profileId, findProfile profiles pn.2.profileId with
    | some p1, some p2 =>
      if pn.1.length = pn.2.length ∨ pn.1.profileId = pn.2.profileId then
        some (sampleProfilePoints p1 options)
      else
        let t := max 0 (min 1 ((len - pn.1.length) / (pn.2.length - pn.1.length)))
        match mergeProfilesByAngle p1 p2 options with
        | [] => none
        | m0 :: mrest =>
          some ((m0 :: mrest).map fun mp =>
            ⟨mp.point1.x * (1 - t) + mp.point2.x * t,
             mp.point1.y * (1 - t) + mp.point2.y * t⟩)
    | _, _ => none

structure SectionFrame where
  xAxis : Vec3
  yAxis : Vec3
  direction : Vec3
  centerA : Vec3
  centerB : Vec3

structure SectionResult where
  frame : SectionFrame
  profile1Points : List Vec3
  profile2Points : List Vec3

/-- Projection of a local polyline into world space, as in the source's local
`projectProfile`: `center + xAxis * pt.x + yAxis * pt.y`, componentwise. -/
def projectProfile (center : Vec3) (pts : List Point2) (fr : Frame3) : List Vec3 :=
  pts.map fun pt =>
    ⟨center.x + fr.xAxis.x * pt.x + fr.yAxis.x * pt.y,
     center.y + fr.xAxis.y * pt.x + fr.yAxis.y * pt.y,
     center.z + fr.xAxis.z * pt.x + fr.yAxis.z * pt.y⟩

/-- Embedding of `buildProfileSection3DRange(axisData, heightAssignments,
profileAssignments, profiles, lengthA, lengthB, lengthC, options)`.  The JS
parameter `lengthC` may be absent and is used through a truthiness test, so it
is modelled as `Option ℝ` with `some 0` falsy like `none`. -/
def buildProfileSection3DRange (axisData : List Segment)
    (heightAssignments : List HeightAssignment)
    (profileAssignments : List ProfileAssignment) (profiles : List Profile)
    (lengthA lengthB : ℝ) (lengthC : Option ℝ) (options : SampleOptions) :
    Option SectionResult :=
  let centerA := getAxis3DPointsAtLength axisData heightAssignments lengthA
  let centerB := getAxis3DPointsAtLength axisData heightAssignments lengthB
  let centerC : Option Vec3 :=
    match lengthC with
    | none => none
    | some c =>
      if c = 0 then none else some (getAxis3DPointsAtLength axisData heightAssignments c)
  match interpolateProfileAtLength lengthA profileAssignments profiles options true,
        interpolateProfileAtLength lengthB profileAssignments profiles options false with
  | some profileA, some profileB =>
    match profileA, profileB with
    | [], _ => none
    | _, [] => none
    | pA0 :: pArest, pB0 :: pBrest =>
      if (pA0 :: pArest).length ≠ (pB0 :: pBrest).length then none
      else
        let frame := buildPerpendicularAxes centerA centerB
        let frame1 :=
          match centerC with
          | none => none
          | some cC => some (buildPerpendicularAxes centerB cC)
        some
          { frame := ⟨frame.xAxis, frame.yAxis, frame.direction, centerA, centerB⟩,
            profile1Points := projectProfile centerA (pA0 :: pArest) frame,
            profile2Points := projectProfile centerB (pB0 :: pBrest) (frame1.getD frame) }
  | _, _ => none

/-- The distance between the first and last points of a polyline (`0` for an
empty one); the quantity the profile-closure property bounds. -/
def closureGap : List Point2 → ℝ
  | [] => 0
  | p :: rest =>
    hypot2 (p.x - ((p :: rest).getLast (List.cons_ne_nil p rest)).x)
      (p.y - ((p :: rest).getLast (List.cons_ne_nil p rest)).y)

/-- Validity of one axis segment, the "non-degenerate" hypothesis of the axis
endpoint identity: a line has a non-zero chord; an arc has non-zero radius and
a non-zero chord no longer than the diameter (so `calculateArcCenter`
succeeds). -/
def ValidSeg : Segment → Prop
  | .line s e => hypot2 (e.x - s.x) (e.y - s.y) ≠ 0
  | .arc s e r => r ≠ 0 ∧ hypot2 (e.x - s.x) (e.y - s.y) ≠ 0 ∧
      hypot2 (e.x - s.x) (e.y - s.y) ≤ 2 * |r|

end

/-! ### Helper lemmas -/

lemma hypot2_x_zero (x : ℝ) : hypot2 x 0 = |x| := by
  rw [hypot2]
  norm_num [Real.sqrt_sq_eq_abs]

lemma hypot2_zero_zero : hypot2 0 0 = 0 := by
  rw [hypot2_x_zero]
  norm_num

lemma foldl_sample_ne_nil (f : Segment → List Point2) (l : List Segment)
    (init : List Point2) (h : init ≠ []) :
    l.foldl (fun acc seg => acc ++ f seg) init ≠ [] := by
  induction l generalizing init with
  | nil => simpa using h
  | cons seg rest ih =>
    simp only [List.foldl_cons]
    exact ih (init ++ f seg) (by simp [h])

lemma closeLoop_ne_nil (pts : List Point2) (h : pts ≠ []) : closeLoop pts ≠ [] := by
  match pts with
  | [] => exact absurd rfl h
  | [p] => simp [closeLoop]
  | first :: p :: rest =>
    rw [closeLoop]
    split <;> simp

lemma closureGap_closeLoop_le (pts : List Point2) : closureGap (closeLoop pts) ≤ 1e-6 := by
  match pts with
  | [] =>
    simp only [closeLoop, closureGap]
    norm_num
  | [p] =>
    simp only [closeLoop, closureGap, List.getLast_singleton]
    simp [hypot2_zero_zero]
    norm_num
  | first :: p :: rest =>
    rw [closeLoop]
    split
    · have h1 : (first :: p :: rest) ++ [first] = first :: ((p :: rest) ++ [first]) := by simp
      rw [h1, closureGap]
      have h2 : ((p :: rest) ++ [first]).getLast (by simp) = first := List.getLast_concat _
      rw [List.getLast_cons (by simp), h2]
      simp [hypot2_zero_zero]
      norm_num
    · rename_i hgap
      rw [not_lt] at hgap
      rw [closureGap, List.getLast_cons (List.cons_ne_nil p rest)]
      exact hgap

/-! ### C9: profile closure -/

/-- C9: for every profile with at least one segment, `sampleProfilePoints`
returns a nonempty polyline whose first and last points coincide within the
`1e-6` tolerance. -/
theorem C9_profile_closure (profile : Profile) (options : SampleOptions)
    (h : profile.segments ≠ []) :
    sampleProfilePoints profile options ≠ [] ∧
    closureGap (sampleProfilePoints profile options) ≤ 1e-6 := by
  rw [sampleProfilePoints]
  match hseg : profile.segments with
  | [] => exact absurd hseg h
  | seg0 :: rest =>
    refine ⟨?_, closureGap_closeLoop_le _⟩
    exact closeLoop_ne_nil _ (foldl_sample_ne_nil _ _ _ (by simp))

/-- Witness for C9 at a concrete two-point line profile. -/
theorem C9_profile_closure_witness :
    sampleProfilePoints ⟨"P", [Segment.line ⟨0, 0⟩ ⟨1, 0⟩]⟩ ⟨0, 0⟩ ≠ [] ∧
    closureGap (sampleProfilePoints ⟨"P", [Segment.line ⟨0, 0⟩ ⟨1, 0⟩]⟩ ⟨0, 0⟩) ≤ 1e-6 :=
  C9_profile_closure ⟨"P", [Segment.line ⟨0, 0⟩ ⟨1, 0⟩]⟩ ⟨0, 0⟩ (by simp)

/-! ### C10: a zero third length is discarded by the truthiness test -/

/-- C10: calling `buildProfileSection3DRange` with `lengthC = 0` behaves
exactly as if `lengthC` were not supplied, because the JS truthiness test on
`lengthC` discards a zero third length. -/
theorem C10_zero_lengthC (axisData : List Segment)
    (heightAssignments : List HeightAssignment)
    (profileAssignments : List ProfileAssignment) (profiles : List Profile)
    (lengthA lengthB : ℝ) (options : SampleOptions) :
    buildProfileSection3DRange axisData heightAssignments profileAssignments profiles
        lengthA lengthB (some 0) options =
      buildProfileSection3DRange axisData heightAssignments profileAssignments profiles
        lengthA lengthB none options := by
  rw [buildProfileSection3DRange.eq_def, buildProfileSection3DRange.eq_def]
  norm_num

/-! ### C6: ring consistency -/

/-- C6: `buildProfileSection3DRange` never returns a result whose two rings
have unequal point counts. -/
theorem C6_ring_consistency (axisData : List Segment)
    (heightAssignments : List HeightAssignment)
    (profileAssignments : List ProfileAssignment) (profiles : List Profile)
    (lengthA lengthB : ℝ) (lengthC : Option ℝ) (options : SampleOptions)
    (r : SectionResult)
    (hr : buildProfileSection3DRange axisData heightAssignments profileAssignments profiles
        lengthA lengthB lengthC options = some r) :
    r.profile1Points.length = r.profile2Points.length := by
  rw [buildProfileSection3DRange.eq_def] at hr
  repeat' split at hr
  any_goals exact Option.noConfusion hr
  all_goals
    rename_i hlen
    rw [not_ne_iff] at hlen
    obtain rfl : _ = r := Option.some.inj hr
    simpa [projectProfile] using hlen

/-! ### C7: merge monotonicity and angle range -/

lemma normalizeAngle_bounds (x : ℝ) : 0 ≤ normalizeAngle x ∧ normalizeAngle x < 2 * π := by
  have hy : (0 : ℝ) < 2 * π := by positivity
  rw [normalizeAngle, jsMod]
  by_cases hx : 0 ≤ x / (2 * π)
  · rw [if_pos hx]
    have key : x - 2 * π * ((⌊x / (2 * π)⌋ : ℤ) : ℝ) = 2 * π * Int.fract (x / (2 * π)) := by
      rw [Int.fract]
      field_simp
    rw [key]
    have h0 : 0 ≤ 2 * π * Int.fract (x / (2 * π)) :=
      mul_nonneg hy.le (Int.fract_nonneg _)
    rw [if_neg (not_lt.mpr h0)]
    refine ⟨h0, ?_⟩
    have := mul_lt_mul_of_pos_left (Int.fract_lt_one (x / (2 * π))) hy
    simpa using this
  · rw [if_neg hx]
    have hc0 : x / (2 * π) ≤ ((⌈x / (2 * π)⌉ : ℤ) : ℝ) := Int.le_ceil _
    have hc1 : ((⌈x / (2 * π)⌉ : ℤ) : ℝ) < x / (2 * π) + 1 := Int.ceil_lt_add_one _
    have ha0 : x - 2 * π * ((⌈x / (2 * π)⌉ : ℤ) : ℝ) ≤ 0 := by
      have := mul_le_mul_of_nonneg_left hc0 hy.le
      have hx' : 2 * π * (x / (2 * π)) = x := by field_simp
      nlinarith
    have ha1 : -(2 * π) < x - 2 * π * ((⌈x / (2 * π)⌉ : ℤ) : ℝ) := by
      have := mul_lt_mul_of_pos_left hc1 hy
      have hx' : 2 * π * (x / (2 * π)) = x := by field_simp
      nlinarith
    by_cases hneg : x - 2 * π * ((⌈x / (2 * π)⌉ : ℤ) : ℝ) < 0
    · rw [if_pos hneg]
      constructor <;> nlinarith
    · rw [if_neg hneg]
      exact ⟨not_lt.mp hneg, by nlinarith⟩

lemma collectPass_angle (sourcePts otherPts : List Point2) (flag : Bool) (mp : MergedPair)
    (h : mp ∈ collectPass sourcePts otherPts flag) : ∃ z, mp.angle = normalizeAngle z := by
  rw [collectPass, List.mem_filterMap] at h
  obtain ⟨pt, _, heq⟩ := h
  simp only at heq
  rcases hI : intersectProfileWithRay
      ⟨pt.x - (compute2DCentroid sourcePts).x, pt.y - (compute2DCentroid sourcePts).y⟩
      otherPts with _ | m
  · rw [hI] at heq
    exact Option.noConfusion heq
  · rw [hI] at heq
    cases flag with
    | true =>
      simp only [if_pos] at heq
      obtain rfl := Option.some.inj heq
      exact ⟨atan2 pt.y pt.x, rfl⟩
    | false =>
      simp only [Bool.false_eq_true, if_neg] at heq
      obtain rfl := Option.some.inj heq
      exact ⟨atan2 m.y m.x, rfl⟩

instance : IsTotal MergedPair (fun a b => a.angle ≤ b.angle) :=
  ⟨fun a b => le_total a.angle b.angle⟩

instance : IsTrans MergedPair (fun a b => a.angle ≤ b.angle) :=
  ⟨fun _ _ _ => le_trans⟩

/-- C7: `mergeProfilesByAngle` returns a list sorted non-decreasing by the
`angle` field, and every angle lies in `[0, 2π)`. -/
theorem C7_merge_sorted_and_range (profile1 profile2 : Profile) (options : SampleOptions) :
    List.Sorted (fun a b => a.angle ≤ b.angle) (mergeProfilesByAngle profile1 profile2 options) ∧
    ∀ mp ∈ mergeProfilesByAngle profile1 profile2 options, 0 ≤ mp.angle ∧ mp.angle < 2 * π := by
  constructor
  · simp only [mergeProfilesByAngle]
    exact List.sorted_insertionSort _ _
  · intro mp hmp
    simp only [mergeProfilesByAngle, List.mem_insertionSort, List.mem_append] at hmp
    obtain ⟨z, hz⟩ := hmp.elim (collectPass_angle _ _ _ _) (collectPass_angle _ _ _ _)
    rw [hz]
    exact normalizeAngle_bounds z

/-! ### Vector helper lemmas for C5 -/

lemma hypot3_sq (x y z : ℝ) : hypot3 x y z ^ 2 = x ^ 2 + y ^ 2 + z ^ 2 :=
  Real.sq_sqrt (by positivity)

lemma hypot3_eq_zero (x y z : ℝ) : hypot3 x y z = 0 ↔ x = 0 ∧ y = 0 ∧ z = 0 := by
  rw [hypot3, Real.sqrt_eq_zero (by positivity)]
  constructor
  · intro h
    refine ⟨?_, ?_, ?_⟩ <;> nlinarith [sq_nonneg x, sq_nonneg y, sq_nonneg z]
  · rintro ⟨rfl, rfl, rfl⟩
    ring

lemma dot_normalizeVec3_self (v : Vec3) (h : hypot3 v.x v.y v.z ≠ 0) :
    dot (normalizeVec3 v) (normalizeVec3 v) = 1 := by
  rw [normalizeVec3, if_neg h, dot]
  have hsq := hypot3_sq v.x v.y v.z
  field_simp
  nlinarith [hsq]

lemma dot_cross_left (a b : Vec3) : dot (cross a b) a = 0 := by
  simp only [dot, cross]
  ring

lemma dot_cross_right (a b : Vec3) : dot (cross a b) b = 0 := by
  simp only [dot, cross]
  ring

lemma dot_cross_self (a b : Vec3) :
    dot (cross a b) (cross a b) = dot a a * dot b b - dot a b ^ 2 := by
  simp only [dot, cross]
  ring

/-! ### C5: perpendicular frame -/

/-- C5, counterexample: the points `(0,0,0)` and `(-1,0,0)` are distinct, yet
the frame's `yAxis` is the zero vector (the fallback branch is taken because
`projLen < 1e-6` tests the signed projection, and `cross(dir, globalX)`
vanishes), so `yAxis` is not a unit vector. -/
theorem C5_counterexample :
    (⟨0, 0, 0⟩ : Vec3) ≠ (⟨-1, 0, 0⟩ : Vec3) ∧
    (buildPerpendicularAxes ⟨0, 0, 0⟩ ⟨-1, 0, 0⟩).yAxis = ⟨0, 0, 0⟩ ∧
    dot (buildPerpendicularAxes ⟨0, 0, 0⟩ ⟨-1, 0, 0⟩).yAxis
      (buildPerpendicularAxes ⟨0, 0, 0⟩ ⟨-1, 0, 0⟩).yAxis ≠ 1 := by
  have hdir : normalizeVec3 ⟨-1 - 0, 0 - 0, 0 - 0⟩ = (⟨-1, 0, 0⟩ : Vec3) := by
    rw [normalizeVec3]
    rw [show hypot3 (-1 - 0 : ℝ) (0 - 0) (0 - 0) = 1 by
      rw [hypot3]
      norm_num]
    norm_num
  have hframe : buildPerpendicularAxes ⟨0, 0, 0⟩ ⟨-1, 0, 0⟩ =
      ⟨⟨1, 0, 0⟩, ⟨0, 0, 0⟩, ⟨-1, 0, 0⟩⟩ := by
    rw [buildPerpendicularAxes, hdir]
    rw [show cross ⟨-1, 0, 0⟩ ⟨1, 0, 0⟩ = (⟨0, 0, 0⟩ : Vec3) by rw [cross]; norm_num]
    rw [show normalizeVec3 ⟨0, 0, 0⟩ = (⟨0, 0, 0⟩ : Vec3) by
      rw [normalizeVec3]
      rw [show hypot3 (0:ℝ) 0 0 = 0 by rw [hypot3]; norm_num]
      norm_num]
    rw [dot]
    norm_num
  refine ⟨by simp, by rw [hframe], by rw [hframe, dot]; norm_num⟩

/-- C5, amended: whenever the normalised direction's world-x component is at
least `1e-6` (the main branch of `buildPerpendicularAxes`), the returned frame
is orthonormal and its `yAxis` has non-negative world-y component.  (For the
fallback branch the property fails, as the counterexample shows.) -/
theorem C5_amended (p1 p2 : Vec3)
    (h : 1e-6 ≤ (normalizeVec3 ⟨p2.x - p1.x, p2.y - p1.y, p2.z - p1.z⟩).x) :
    (dot (buildPerpendicularAxes p1 p2).xAxis (buildPerpendicularAxes p1 p2).xAxis = 1 ∧
      dot (buildPerpendicularAxes p1 p2).yAxis (buildPerpendicularAxes p1 p2).yAxis = 1 ∧
      dot (buildPerpendicularAxes p1 p2).direction (buildPerpendicularAxes p1 p2).direction = 1) ∧
    (dot (buildPerpendicularAxes p1 p2).xAxis (buildPerpendicularAxes p1 p2).yAxis = 0 ∧
      dot (buildPerpendicularAxes p1 p2).xAxis (buildPerpendicularAxes p1 p2).direction = 0 ∧
      dot (buildPerpendicularAxes p1 p2).yAxis (buildPerpendicularAxes p1 p2).direction = 0) ∧
    0 ≤ (buildPerpendicularAxes p1 p2).yAxis.y := by
  set v : Vec3 := ⟨p2.x - p1.x, p2.y - p1.y, p2.z - p1.z⟩ with hv
  have hn : hypot3 v.x v.y v.z ≠ 0 := by
    intro h0
    rw [normalizeVec3, if_pos h0] at h
    norm_num at h
  set dir := normalizeVec3 v with hdir
  have hdir_unit : dot dir dir = 1 := dot_normalizeVec3_self v hn
  have hdx : (0 : ℝ) < dir.x := lt_of_lt_of_le (by norm_num) h
  have hproj : dot ⟨1, 0, 0⟩ dir = dir.x := by
    rw [dot]
    ring
  have hm : hypot3 (-dir.z) 0 dir.x ≠ 0 := by
    intro h0
    rw [hypot3_eq_zero] at h0
    exact hdx.ne' h0.2.2
  set xA := normalizeVec3 ⟨-dir.z, 0, dir.x⟩ with hxA
  have hxA_unit : dot xA xA = 1 := dot_normalizeVec3_self _ hm
  have hxA_dir : dot xA dir = 0 := by
    rw [hxA, normalizeVec3, if_neg hm, dot]
    ring
  set c := cross dir xA with hc
  have hcc : dot c c = 1 := by
    rw [hc, dot_cross_self, hdir_unit, hxA_unit]
    have : dot dir xA = dot xA dir := by rw [dot, dot]; ring
    rw [this, hxA_dir]
    ring
  have hcn : hypot3 c.x c.y c.z = 1 := by
    have hsum : c.x ^ 2 + c.y ^ 2 + c.z ^ 2 = 1 := by
      have : dot c c = c.x ^ 2 + c.y ^ 2 + c.z ^ 2 := by rw [dot]; ring
      linarith [hcc, this.symm.trans hcc]
    rw [hypot3, hsum, Real.sqrt_one]
  have hyA : normalizeVec3 c = c := by
    rw [normalizeVec3, if_neg (by rw [hcn]; norm_num)]
    rw [hcn]
    simp
  have hyA_dir : dot c dir = 0 := dot_cross_left dir xA
  have hyA_xA : dot c xA = 0 := dot_cross_right dir xA
  have hbuild : buildPerpendicularAxes p1 p2 =
      (if c.y < 0 then (⟨⟨-xA.x, -xA.y, -xA.z⟩, ⟨-c.x, -c.y, -c.z⟩, dir⟩ : Frame3)
        else ⟨xA, c, dir⟩) := by
    rw [buildPerpendicularAxes]
    dsimp only
    rw [show normalizeVec3 ⟨p2.x - p1.x, p2.y - p1.y, p2.z - p1.z⟩ = dir from rfl]
    rw [if_neg (by rw [hproj]; exact not_lt.mpr h)]
    rw [show normalizeVec3 ⟨-dir.z, 0, dir.x⟩ = xA from rfl]
    rw [show cross dir xA = c from rfl]
    rw [hyA]
  rw [hbuild]
  split
  · rename_i hflip
    refine ⟨⟨?_, ?_, hdir_unit⟩, ⟨?_, ?_, ?_⟩, ?_⟩
    · rw [show dot ⟨-xA.x, -xA.y, -xA.z⟩ ⟨-xA.x, -xA.y, -xA.z⟩ = dot xA xA by
        rw [dot, dot]; ring]
      exact hxA_unit
    · rw [show dot ⟨-c.x, -c.y, -c.z⟩ ⟨-c.x, -c.y, -c.z⟩ = dot c c by rw [dot, dot]; ring]
      exact hcc
    · rw [show dot ⟨-xA.x, -xA.y, -xA.z⟩ ⟨-c.x, -c.y, -c.z⟩ = dot c xA by rw [dot, dot]; ring]
      exact hyA_xA
    · rw [show dot ⟨-xA.x, -xA.y, -xA.z⟩ dir = -dot xA dir by rw [dot, dot]; ring]
      rw [hxA_dir]
      ring
    · rw [show dot ⟨-c.x, -c.y, -c.z⟩ dir = -dot c dir by rw [dot, dot]; ring]
      rw [hyA_dir]
      ring
    · simp only
      linarith
  · rename_i hflip
    refine ⟨⟨hxA_unit, hcc, hdir_unit⟩, ⟨?_, hxA_dir, hyA_dir⟩, not_lt.mp hflip⟩
    rw [show dot xA c = dot c xA by rw [dot, dot]; ring]
    exact hyA_xA

/-- Witness for C5 at `p1 = (0,0,0)`, `p2 = (1,0,0)`. -/
theorem C5_amended_witness :
    (dot (buildPerpendicularAxes ⟨0, 0, 0⟩ ⟨1, 0, 0⟩).xAxis
        (buildPerpendicularAxes ⟨0, 0, 0⟩ ⟨1, 0, 0⟩).xAxis = 1 ∧
      dot (buildPerpendicularAxes ⟨0, 0, 0⟩ ⟨1, 0, 0⟩).yAxis
        (buildPerpendicularAxes ⟨0, 0, 0⟩ ⟨1, 0, 0⟩).yAxis = 1 ∧
      dot (buildPerpendicularAxes ⟨0, 0, 0⟩ ⟨1, 0, 0⟩).direction
        (buildPerpendicularAxes ⟨0, 0, 0⟩ ⟨1, 0, 0⟩).direction = 1) ∧
    (dot (buildPerpendicularAxes ⟨0, 0, 0⟩ ⟨1, 0, 0⟩).xAxis
        (buildPerpendicularAxes ⟨0, 0, 0⟩ ⟨1, 0, 0⟩).yAxis = 0 ∧
      dot (buildPerpendicularAxes ⟨0, 0, 0⟩ ⟨1, 0, 0⟩).xAxis
        (buildPerpendicularAxes ⟨0, 0, 0⟩ ⟨1, 0, 0⟩).direction = 0 ∧
      dot (buildPerpendicularAxes ⟨0, 0, 0⟩ ⟨1, 0, 0⟩).yAxis
        (buildPerpendicularAxes ⟨0, 0, 0⟩ ⟨1, 0, 0⟩).direction = 0) ∧
    0 ≤ (buildPerpendicularAxes ⟨0, 0, 0⟩ ⟨1, 0, 0⟩).yAxis.y := by
  apply C5_amended
  rw [normalizeVec3]
  rw [show hypot3 ((1:ℝ) - 0) (0 - 0) (0 - 0) = 1 by rw [hypot3]; norm_num]
  norm_num

/-! ### C4: degenerate-arc length accounting -/

lemma computeAxisTotalLength_eq_sum (axisData : List Segment) :
    computeAxisTotalLength axisData = (axisData.map segLength).sum := by
  rw [computeAxisTotalLength]
  suffices h : ∀ (l : List Segment) (init : ℝ),
      l.foldl (fun sum seg => sum + segLength seg) init = init + (l.map segLength).sum by
    simpa using h axisData 0
  intro l
  induction l with
  | nil => simp
  | cons seg rest ih =>
    intro init
    simp [ih, List.sum_cons]
    ring

lemma sqrt_hundred : Real.sqrt 100 = 10 := by
  rw [show (100 : ℝ) = 10 ^ 2 by norm_num, Real.sqrt_sq (by norm_num : (0:ℝ) ≤ 10)]

/-- C4, counterexample: the arc from `(0,0)` to `(10,0)` with radius `1` is
degenerate (its chord `10` exceeds `2·|radius| = 2`, so `calculateArcCenter`
fails), yet it contributes `π`, not `0`, to the total axis length, because
`computeAxisTotalLength` clamps `chord / (2r)` with `min 1` instead of
checking the center. -/
theorem C4_counterexample :
    calculateArcCenter ⟨0, 0⟩ ⟨10, 0⟩ 1 = none ∧
    computeAxisTotalLength [Segment.arc ⟨0, 0⟩ ⟨10, 0⟩ 1] = π ∧ π ≠ 0 := by
  have hd : Real.sqrt (((10:ℝ) - 0) ^ 2 + ((0:ℝ) - 0) ^ 2) = 10 := by
    rw [show ((10:ℝ) - 0) ^ 2 + ((0:ℝ) - 0) ^ 2 = 100 by norm_num, sqrt_hundred]
  refine ⟨?_, ?_, Real.pi_ne_zero⟩
  · rw [calculateArcCenter]
    simp only [hd]
    norm_num
  · rw [computeAxisTotalLength_eq_sum]
    simp only [List.map_cons, List.map_nil, List.sum_cons, List.sum_nil, segLength]
    rw [if_neg (by norm_num : ¬ (1:ℝ) = 0)]
    simp only [hypot2, hd]
    rw [if_neg (by norm_num : ¬ (10:ℝ) = 0)]
    rw [show min (1:ℝ) (10 / (2 * |1|)) = 1 by norm_num]
    rw [Real.arcsin_one, abs_one]
    ring

/-- C4, amended: a zero-radius or zero-chord degenerate arc contributes `0` to
the total length, but a degenerate arc whose chord exceeds twice its radius
contributes `|radius| * π` (the `min 1` clamp sends `asin` to `π/2`); the
total length is the sum of the per-segment contributions. -/
theorem C4_amended (s e : Point2) (r : ℝ) :
    segLength (Segment.arc s e 0) = 0 ∧
    segLength (Segment.arc s s r) = 0 ∧
    (calculateArcCenter s e r = none → r ≠ 0 → hypot2 (e.x - s.x) (e.y - s.y) ≠ 0 →
      segLength (Segment.arc s e r) = |r| * π) ∧
    ∀ axisData : List Segment, computeAxisTotalLength axisData = (axisData.map segLength).sum := by
  refine ⟨?_, ?_, ?_, computeAxisTotalLength_eq_sum⟩
  · rw [segLength]
    norm_num
  · rw [segLength]
    by_cases hr : r = 0
    · rw [if_pos hr]
    · rw [if_neg hr]
      rw [show hypot2 (s.x - s.x) (s.y - s.y) = 0 by
        rw [show s.x - s.x = (0:ℝ) by ring, show s.y - s.y = (0:ℝ) by ring, hypot2_zero_zero]]
      norm_num
  · intro hc hr hchord
    have habs : |r| ≠ 0 := abs_ne_zero.mpr hr
    have habs' : (0:ℝ) < |r| := abs_pos.mpr hr
    rw [hypot2] at hchord
    rw [calculateArcCenter] at hc
    rw [if_neg habs] at hc
    dsimp only at hc
    by_cases hcond : Real.sqrt ((e.x - s.x) ^ 2 + (e.y - s.y) ^ 2) > 2 * |r| ∨
        Real.sqrt ((e.x - s.x) ^ 2 + (e.y - s.y) ^ 2) = 0
    · have hgt : Real.sqrt ((e.x - s.x) ^ 2 + (e.y - s.y) ^ 2) > 2 * |r| :=
        hcond.resolve_right hchord
      rw [segLength, if_neg hr]
      dsimp only
      rw [hypot2]
      rw [if_neg hchord]
      rw [show min (1:ℝ) (Real.sqrt ((e.x - s.x) ^ 2 + (e.y - s.y) ^ 2) / (2 * |r|)) = 1 by
        rw [min_eq_left]
        rw [le_div_iff₀ (by positivity)]
        linarith]
      rw [Real.arcsin_one]
      ring
    · rw [if_neg hcond] at hc
      exact Option.noConfusion hc

/-- Witness for C4 at the arc `(0,0) → (10,0)` with radius `1`. -/
theorem C4_amended_witness :
    segLength (Segment.arc ⟨0, 0⟩ ⟨10, 0⟩ 1) = |1| * π := by
  have hd : Real.sqrt (((10:ℝ) - 0) ^ 2 + ((0:ℝ) - 0) ^ 2) = 10 := by
    rw [show ((10:ℝ) - 0) ^ 2 + ((0:ℝ) - 0) ^ 2 = 100 by norm_num, sqrt_hundred]
  refine (C4_amended ⟨0, 0⟩ ⟨10, 0⟩ 1).2.2.1 ?_ (by norm_num) ?_
  · rw [calculateArcCenter]
    simp only [hd]
    norm_num
  · rw [hypot2]
    simp only
    rw [hd]
    norm_num

/-! ### C8: height interpolation -/

lemma getHeightAtLength_two (a b ha hb len : ℝ) (hab : a ≤ b) :
    getHeightAtLength [⟨a, ha⟩, ⟨b, hb⟩] len =
      if b ≤ len + 1e-6 then hb
      else if len ≤ a then ha
      else (len - a) / (b - a) * (hb - ha) + ha := by
  have hsort : List.insertionSort (fun x y : HeightAssignment => x.length ≤ y.length)
      [⟨a, ha⟩, ⟨b, hb⟩] = [⟨a, ha⟩, ⟨b, hb⟩] := by
    simp only [List.insertionSort, List.orderedInsert]
    rw [if_pos (show (⟨a, ha⟩ : HeightAssignment).length ≤ (⟨b, hb⟩ : HeightAssignment).length
      from hab)]
  rw [getHeightAtLength, hsort]
  by_cases h1 : b ≤ len + 1e-6
  · have hscan : heightScan len ⟨a, ha⟩ [⟨b, hb⟩] = (⟨b, hb⟩, none) := by
      rw [heightScan, if_pos (show (⟨b, hb⟩ : HeightAssignment).length ≤ len + 1e-6 from h1),
        heightScan]
    simp only [hscan]
    rw [if_pos h1]
  · have hscan : heightScan len ⟨a, ha⟩ [⟨b, hb⟩] = (⟨a, ha⟩, some ⟨b, hb⟩) := by
      rw [heightScan, if_neg (show ¬ (⟨b, hb⟩ : HeightAssignment).length ≤ len + 1e-6 from h1)]
    simp only [hscan]
    rw [if_neg h1]

/-- C8, counterexample: for heights `[(0,0),(5,10)]` the code returns `10` at
length `5 - 1e-7` (the `1e-6` tolerance snaps to the next entry), whereas the
linear interpolation between the bracketing entries is `10 - 2e-7 ≠ 10`. -/
theorem C8_counterexample :
    getHeightAtLength [⟨0, 0⟩, ⟨5, 10⟩] (5 - 1e-7) = 10 ∧
    (5 - 1e-7 - 0) / (5 - 0) * (10 - 0) + 0 ≠ (10 : ℝ) := by
  constructor
  · rw [getHeightAtLength_two 0 5 0 10 (5 - 1e-7) (by norm_num)]
    rw [if_pos (by norm_num)]
  · norm_num

/-- The scan loop consumes exactly the longest tolerant prefix: if every entry
of `taken` is within `len + 1e-6` and the first entry of `post` (if any) is
not, the loop's final `chosen` is the last of `c0 :: taken` and `current` is
the head of `post`. -/
lemma heightScan_spec (len : ℝ) (c0 : HeightAssignment) (taken post : List HeightAssignment)
    (htaken : ∀ e ∈ taken, e.length ≤ len + 1e-6)
    (hpost : ∀ cur, post.head? = some cur → len + 1e-6 < cur.length) :
    heightScan len c0 (taken ++ post) =
      ((c0 :: taken).getLast (List.cons_ne_nil _ _), post.head?) := by
  induction taken generalizing c0 with
  | nil =>
    cases post with
    | nil => rfl
    | cons cur pt =>
      rw [List.nil_append, heightScan, if_neg (not_le.mpr (hpost cur rfl))]
      rfl
  | cons t ts ih =>
    rw [List.cons_append, heightScan, if_pos (htaken t (by simp)),
      ih t (fun e he => htaken e (by simp [he])),
      List.getLast_cons (List.cons_ne_nil _ _)]

/-- Every list splits into a tolerant prefix and a remainder whose head (if
any) is beyond the tolerance; this is the split the scan loop realizes. -/
lemma heightSplit_exists (len : ℝ) (tail : List HeightAssignment) :
    ∃ taken post, tail = taken ++ post ∧ (∀ e ∈ taken, e.length ≤ len + 1e-6) ∧
      (∀ cur, post.head? = some cur → len + 1e-6 < cur.length) := by
  induction tail with
  | nil => exact ⟨[], [], rfl, by simp, by simp⟩
  | cons t ts ih =>
    by_cases ht : t.length ≤ len + 1e-6
    · obtain ⟨tk, po, heq, h1, h2⟩ := ih
      refine ⟨t :: tk, po, by rw [List.cons_append, heq], ?_, h2⟩
      intro e he
      rcases List.mem_cons.mp he with rfl | he2
      · exact ht
      · exact h1 e he2
    · refine ⟨[], t :: ts, rfl, by simp, ?_⟩
      intro cur hc
      rw [List.head?_cons] at hc
      obtain rfl := Option.some.inj hc
      exact not_le.mp ht

/-- C8, amended: `getHeightAtLength` returns `0` for an empty table and `5` at
length `2.5` for `[(0,0),(5,10)]`.  For every nonempty table the sorted list
splits as `c0 :: (taken ++ post)` where `taken` is the longest prefix within
`len + 1e-6` and `post` starts beyond it (third conjunct), and on any such
split (fourth conjunct) the result is: the height of `chosen` — the last entry
of `c0 :: taken` — when `post` is empty (clamp above / snap at the top) or
when `chosen.length ≥ len` (clamp below / interior snap within `1e-6` of the
next entry), and otherwise the linear interpolation between the bracketing
entries `chosen` and the head of `post`. -/
theorem C8_amended :
    (∀ len : ℝ, getHeightAtLength [] len = 0) ∧
    getHeightAtLength [⟨0, 0⟩, ⟨5, 10⟩] (5 / 2) = 5 ∧
    (∀ (hs : List HeightAssignment) (len : ℝ), hs ≠ [] →
      ∃ c0 taken post,
        List.insertionSort (fun a b => a.length ≤ b.length) hs = c0 :: (taken ++ post) ∧
        (∀ e ∈ taken, e.length ≤ len + 1e-6) ∧
        (∀ cur, post.head? = some cur → len + 1e-6 < cur.length)) ∧
    (∀ (hs : List HeightAssignment) (len : ℝ)
        (c0 : HeightAssignment) (taken post : List HeightAssignment),
      List.insertionSort (fun a b => a.length ≤ b.length) hs = c0 :: (taken ++ post) →
      (∀ e ∈ taken, e.length ≤ len + 1e-6) →
      (∀ cur, post.head? = some cur → len + 1e-6 < cur.length) →
      (post = [] →
        getHeightAtLength hs len =
          ((c0 :: taken).getLast (List.cons_ne_nil _ _)).height) ∧
      (∀ cur ptail, post = cur :: ptail →
        (((c0 :: taken).getLast (List.cons_ne_nil _ _)).length ≥ len →
          getHeightAtLength hs len =
            ((c0 :: taken).getLast (List.cons_ne_nil _ _)).height) ∧
        (((c0 :: taken).getLast (List.cons_ne_nil _ _)).length < len →
          getHeightAtLength hs len =
            (len - ((c0 :: taken).getLast (List.cons_ne_nil _ _)).length) /
                (cur.length - ((c0 :: taken).getLast (List.cons_ne_nil _ _)).length) *
                (cur.height - ((c0 :: taken).getLast (List.cons_ne_nil _ _)).height) +
              ((c0 :: taken).getLast (List.cons_ne_nil _ _)).height))) := by
  refine ⟨fun len => rfl, ?_, ?_, ?_⟩
  · rw [getHeightAtLength_two 0 5 0 10 (5 / 2) (by norm_num)]
    rw [if_neg (by norm_num), if_neg (by norm_num)]
    norm_num
  · intro hs len hne
    rcases hsorted : List.insertionSort
        (fun a b : HeightAssignment => a.length ≤ b.length) hs with _ | ⟨c0, tail⟩
    · exfalso
      have hlen0 := congrArg List.length hsorted
      rw [List.length_insertionSort] at hlen0
      exact hne (List.length_eq_zero.mp (by simpa using hlen0))
    · obtain ⟨tk, po, heq, h1, h2⟩ := heightSplit_exists len tail
      exact ⟨c0, tk, po, by rw [heq], h1, h2⟩
  · intro hs len c0 taken post hsort htaken hpost
    have hscan := heightScan_spec len c0 taken post htaken hpost
    constructor
    · rintro rfl
      rw [getHeightAtLength, hsort]
      simp only [hscan, List.head?_nil]
    · rintro cur ptail rfl
      constructor
      · intro hge
        rw [getHeightAtLength, hsort]
        simp only [hscan, List.head?_cons]
        rw [if_pos hge]
      · intro hlt
        rw [getHeightAtLength, hsort]
        simp only [hscan, List.head?_cons]
        rw [if_neg (not_le.mpr hlt)]

/-- Witness for C8's general interpolation branch at `[(0,0),(5,10)]`,
length `1`: `chosen = (0,0)`, `current = (5,10)`, value `2`. -/
theorem C8_amended_witness :
    getHeightAtLength ([] : List HeightAssignment) 3 = 0 ∧
    getHeightAtLength [⟨0, 0⟩, ⟨5, 10⟩] (5 / 2) = 5 ∧
    getHeightAtLength [⟨0, 0⟩, ⟨5, 10⟩] 1 = 2 := by
  obtain ⟨hempty, hmid, -, hgen⟩ := C8_amended
  refine ⟨hempty 3, hmid, ?_⟩
  have hsort : List.insertionSort (fun a b : HeightAssignment => a.length ≤ b.length)
      [⟨0, 0⟩, ⟨5, 10⟩] = (⟨0, 0⟩ : HeightAssignment) :: ([] ++ [⟨5, 10⟩]) := by
    simp only [List.insertionSort, List.orderedInsert]
    rw [if_pos (show ((⟨0, 0⟩ : HeightAssignment)).length ≤
      (⟨5, 10⟩ : HeightAssignment).length from by norm_num)]
    rfl
  have h := ((hgen [⟨0, 0⟩, ⟨5, 10⟩] 1 ⟨0, 0⟩ [] [⟨5, 10⟩] hsort
      (fun e he => absurd he (List.not_mem_nil e))
      (fun cur hc => by
        rw [List.head?_cons] at hc
        obtain rfl := Option.some.inj hc
        norm_num)).2 ⟨5, 10⟩ [] rfl).2 (by norm_num [List.getLast_singleton])
  rw [h]
  norm_num [List.getLast_singleton]

/-! ### C2: interpolation boundary clamping -/

lemma bestHitLoop_none (origin dir : Point2) (pairs : List (Point2 × Point2))
    (h : ∀ ab ∈ pairs, |dir.x * (ab.2.y - ab.1.y) - dir.y * (ab.2.x - ab.1.x)| < 1e-9) :
    bestHitLoop origin dir pairs none = none := by
  induction pairs with
  | nil => rfl
  | cons ab rest ih =>
    rw [bestHitLoop]
    have hr : raySegmentIntersection origin dir ab.1 ab.2 = none := by
      rw [raySegmentIntersection]
      dsimp only
      rw [if_pos (h ab (by simp))]
    rw [hr, bestUpdate]
    exact ih fun ab' hab' => h ab' (by simp [hab'])

lemma intersect_horiz_none (tp : Point2) (p0 : Point2) (prest : List Point2)
    (hy : tp.y = 0)
    (hseg : ∀ ab ∈ (p0 :: prest).zip (p0 :: prest).tail, ab.1.y = ab.2.y) :
    intersectProfileWithRay tp (p0 :: prest) = none := by
  rw [intersectProfileWithRay]
  dsimp only
  by_cases hg : tp.x = 0 ∧ tp.y = 0
  · rw [if_pos hg]
  · rw [if_neg hg]
    by_cases hm : hypot2 tp.x tp.y < 1e-9
    · rw [if_pos hm]
    · rw [if_neg hm]
      rw [bestHitLoop_none _ _ _ ?_]
      intro ab hab
      have h1 : ab.1.y = ab.2.y := hseg ab hab
      rw [hy, show ab.2.y - ab.1.y = 0 by rw [h1]; ring]
      norm_num

lemma sampleA :
    sampleProfilePoints ⟨"A", [Segment.line ⟨0, 0⟩ ⟨1, 0⟩]⟩ ⟨0, 0⟩ =
      [⟨0, 0⟩, ⟨1, 0⟩, ⟨0, 0⟩] := by
  rw [sampleProfilePoints]
  simp only [List.foldl_cons, List.foldl_nil, samplePointsOfSeg, segStart,
    List.singleton_append]
  rw [closeLoop]
  simp only [List.getLast_singleton]
  have hgap : hypot2 ((⟨0, 0⟩ : Point2).x - (⟨1, 0⟩ : Point2).x)
      ((⟨0, 0⟩ : Point2).y - (⟨1, 0⟩ : Point2).y) > 1e-6 := by
    rw [show (⟨0, 0⟩ : Point2).x - (⟨1, 0⟩ : Point2).x = (-1 : ℝ) from by norm_num,
      show (⟨0, 0⟩ : Point2).y - (⟨1, 0⟩ : Point2).y = (0 : ℝ) from by norm_num,
      hypot2_x_zero]
    norm_num
  rw [if_pos hgap]
  rfl

lemma sampleB :
    sampleProfilePoints ⟨"B", [Segment.line ⟨10, 0⟩ ⟨11, 0⟩]⟩ ⟨0, 0⟩ =
      [⟨10, 0⟩, ⟨11, 0⟩, ⟨10, 0⟩] := by
  rw [sampleProfilePoints]
  simp only [List.foldl_cons, List.foldl_nil, samplePointsOfSeg, segStart,
    List.singleton_append]
  rw [closeLoop]
  simp only [List.getLast_singleton]
  have hgap : hypot2 ((⟨10, 0⟩ : Point2).x - (⟨11, 0⟩ : Point2).x)
      ((⟨10, 0⟩ : Point2).y - (⟨11, 0⟩ : Point2).y) > 1e-6 := by
    rw [show (⟨10, 0⟩ : Point2).x - (⟨11, 0⟩ : Point2).x = (-1 : ℝ) from by norm_num,
      show (⟨10, 0⟩ : Point2).y - (⟨11, 0⟩ : Point2).y = (0 : ℝ) from by norm_num,
      hypot2_x_zero]
    norm_num
  rw [if_pos hgap]
  rfl

lemma centroidA : compute2DCentroid [⟨0, 0⟩, ⟨1, 0⟩, ⟨0, 0⟩] = (⟨1 / 3, 0⟩ : Point2) := by
  simp [compute2DCentroid]
  try norm_num

lemma centroidB : compute2DCentroid [⟨10, 0⟩, ⟨11, 0⟩, ⟨10, 0⟩] = (⟨31 / 3, 0⟩ : Point2) := by
  simp [compute2DCentroid]
  try norm_num

lemma passAB :
    collectPass [⟨0, 0⟩, ⟨1, 0⟩, ⟨0, 0⟩] [⟨10, 0⟩, ⟨11, 0⟩, ⟨10, 0⟩] true = [] := by
  rw [collectPass, List.filterMap_eq_nil_iff]
  intro pt hpt
  have hy : pt.y = 0 := by fin_cases hpt <;> rfl
  dsimp only
  rw [centroidA]
  have hseg : ∀ ab ∈ ([⟨10, 0⟩, ⟨11, 0⟩, ⟨10, 0⟩] : List Point2).zip
      ([⟨10, 0⟩, ⟨11, 0⟩, ⟨10, 0⟩] : List Point2).tail, ab.1.y = ab.2.y := by
    intro ab hab
    fin_cases hab <;> rfl
  rw [intersect_horiz_none ⟨pt.x - (⟨1 / 3, 0⟩ : Point2).x, pt.y - (⟨1 / 3, 0⟩ : Point2).y⟩
    _ _ (by simpa using hy) hseg]

lemma passBA :
    collectPass [⟨10, 0⟩, ⟨11, 0⟩, ⟨10, 0⟩] [⟨0, 0⟩, ⟨1, 0⟩, ⟨0, 0⟩] false = [] := by
  rw [collectPass, List.filterMap_eq_nil_iff]
  intro pt hpt
  have hy : pt.y = 0 := by fin_cases hpt <;> rfl
  dsimp only
  rw [centroidB]
  have hseg : ∀ ab ∈ ([⟨0, 0⟩, ⟨1, 0⟩, ⟨0, 0⟩] : List Point2).zip
      ([⟨0, 0⟩, ⟨1, 0⟩, ⟨0, 0⟩] : List Point2).tail, ab.1.y = ab.2.y := by
    intro ab hab
    fin_cases hab <;> rfl
  rw [intersect_horiz_none ⟨pt.x - (⟨31 / 3, 0⟩ : Point2).x, pt.y - (⟨31 / 3, 0⟩ : Point2).y⟩
    _ _ (by simpa using hy) hseg]

lemma mergeAB :
    mergeProfilesByAngle ⟨"A", [Segment.line ⟨0, 0⟩ ⟨1, 0⟩]⟩
      ⟨"B", [Segment.line ⟨10, 0⟩ ⟨11, 0⟩]⟩ ⟨0, 0⟩ = [] := by
  rw [mergeProfilesByAngle]
  try dsimp only
  rw [sampleA, sampleB, passAB, passBA]
  rfl

lemma sortPA_two (a b : ℝ) (ia ib : String) (hab : a ≤ b) :
    List.insertionSort (fun x y : ProfileAssignment => x.length ≤ y.length)
      [⟨a, ia⟩, ⟨b, ib⟩] = [⟨a, ia⟩, ⟨b, ib⟩] := by
  simp only [List.insertionSort, List.orderedInsert]
  rw [if_pos (show (⟨a, ia⟩ : ProfileAssignment).length ≤ (⟨b, ib⟩ : ProfileAssignment).length
    from hab)]

/-- C2, counterexample: with the catalog holding profile `A` (the segment
`(0,0)→(1,0)`) and profile `B` (`(10,0)→(11,0)`) and assignments
`[(10,A),(20,B)]`, the query at length `-5` returns `A`'s plain sampled
polyline, but the query at length `10` returns `null` (the blending path runs
and the cross-profile merge is empty), so the two results differ. -/
theorem C2_counterexample :
    interpolateProfileAtLength (-5) [⟨10, "A"⟩, ⟨20, "B"⟩]
        [⟨"A", [Segment.line ⟨0, 0⟩ ⟨1, 0⟩]⟩, ⟨"B", [Segment.line ⟨10, 0⟩ ⟨11, 0⟩]⟩]
        ⟨0, 0⟩ true = some [⟨0, 0⟩, ⟨1, 0⟩, ⟨0, 0⟩] ∧
    interpolateProfileAtLength 10 [⟨10, "A"⟩, ⟨20, "B"⟩]
        [⟨"A", [Segment.line ⟨0, 0⟩ ⟨1, 0⟩]⟩, ⟨"B", [Segment.line ⟨10, 0⟩ ⟨11, 0⟩]⟩]
        ⟨0, 0⟩ true = none ∧
    (some [⟨0, 0⟩, ⟨1, 0⟩, ⟨0, 0⟩] : Option (List Point2)) ≠ none := by
  have hfindA : findProfile
      [⟨"A", [Segment.line ⟨0, 0⟩ ⟨1, 0⟩]⟩, ⟨"B", [Segment.line ⟨10, 0⟩ ⟨11, 0⟩]⟩] "A" =
      some ⟨"A", [Segment.line ⟨0, 0⟩ ⟨1, 0⟩]⟩ := by
    rw [findProfile, List.find?_cons_of_pos _ (by decide)]
  have hfindB : findProfile
      [⟨"A", [Segment.line ⟨0, 0⟩ ⟨1, 0⟩]⟩, ⟨"B", [Segment.line ⟨10, 0⟩ ⟨11, 0⟩]⟩] "B" =
      some ⟨"B", [Segment.line ⟨10, 0⟩ ⟨11, 0⟩]⟩ := by
    rw [findProfile, List.find?_cons_of_neg _ (by decide),
      List.find?_cons_of_pos _ (by decide)]
  have hfb5 : findBracket (-5) [(⟨10, "A"⟩ : ProfileAssignment), ⟨20, "B"⟩] = none := by
    rw [findBracket, if_neg (by norm_num), findBracket]
  have hfb10 : findBracket 10 [(⟨10, "A"⟩ : ProfileAssignment), ⟨20, "B"⟩] =
      some (⟨10, "A"⟩, ⟨20, "B"⟩) := by
    rw [findBracket, if_pos (by constructor <;> norm_num)]
  refine ⟨?_, ?_, by simp⟩
  · norm_num [interpolateProfileAtLength.eq_def,
      sortPA_two 10 20 "A" "B" (by norm_num : (10:ℝ) ≤ 20), hfb5,
      List.getLast_cons, List.getLast_singleton, hfindA, sampleA]
  · norm_num [interpolateProfileAtLength.eq_def,
      sortPA_two 10 20 "A" "B" (by norm_num : (10:ℝ) ≤ 20), hfb10,
      List.getLast_cons, List.getLast_singleton, hfindA, hfindB, mergeAB,
      show ("A" : String) ≠ "B" from by decide]

/-- C2, amended: lengths strictly before the first assignment (beyond `1e-9`)
or strictly after the last clamp to that boundary entry and return its
profile's plain sampled polyline with no blending; at exactly a boundary
length the code instead takes the blending path, so equality with the value
at the boundary length itself does not hold in general. -/
theorem C2_amended (P1 P2 : Profile) (options : SampleOptions) (hids : P1.id ≠ P2.id) :
    interpolateProfileAtLength (-5) [⟨10, P1.id⟩, ⟨20, P2.id⟩] [P1, P2] options true =
      some (sampleProfilePoints P1 options) ∧
    interpolateProfileAtLength 50 [⟨10, P1.id⟩, ⟨20, P2.id⟩] [P1, P2] options true =
      some (sampleProfilePoints P2 options) := by
  have hfind1 : findProfile [P1, P2] P1.id = some P1 := by
    rw [findProfile, List.find?_cons_of_pos _ (by simp)]
  have hfind2 : findProfile [P1, P2] P2.id = some P2 := by
    rw [findProfile, List.find?_cons_of_neg _ (by simp [hids]),
      List.find?_cons_of_pos _ (by simp)]
  have hfb5 : findBracket (-5) [(⟨10, P1.id⟩ : ProfileAssignment), ⟨20, P2.id⟩] = none := by
    rw [findBracket, if_neg (by norm_num), findBracket]
  have hfb50 : findBracket 50 [(⟨10, P1.id⟩ : ProfileAssignment), ⟨20, P2.id⟩] = none := by
    rw [findBracket, if_neg (by norm_num), findBracket]
  constructor
  · norm_num [interpolateProfileAtLength.eq_def,
      sortPA_two 10 20 P1.id P2.id (by norm_num : (10:ℝ) ≤ 20), hfb5,
      List.getLast_cons, List.getLast_singleton, hfind1]
  · norm_num [interpolateProfileAtLength.eq_def,
      sortPA_two 10 20 P1.id P2.id (by norm_num : (10:ℝ) ≤ 20), hfb50,
      List.getLast_cons, List.getLast_singleton, hfind2]

/-- Witness for C2's amended clamping at the concrete two-profile catalog. -/
theorem C2_amended_witness :
    interpolateProfileAtLength (-5) [⟨10, "A"⟩, ⟨20, "B"⟩]
        [⟨"A", [Segment.line ⟨0, 0⟩ ⟨1, 0⟩]⟩, ⟨"B", [Segment.line ⟨10, 0⟩ ⟨11, 0⟩]⟩]
        ⟨0, 0⟩ true =
      some (sampleProfilePoints ⟨"A", [Segment.line ⟨0, 0⟩ ⟨1, 0⟩]⟩ ⟨0, 0⟩) ∧
    interpolateProfileAtLength 50 [⟨10, "A"⟩, ⟨20, "B"⟩]
        [⟨"A", [Segment.line ⟨0, 0⟩ ⟨1, 0⟩]⟩, ⟨"B", [Segment.line ⟨10, 0⟩ ⟨11, 0⟩]⟩]
        ⟨0, 0⟩ true =
      some (sampleProfilePoints ⟨"B", [Segment.line ⟨10, 0⟩ ⟨11, 0⟩]⟩ ⟨0, 0⟩) :=
  C2_amended ⟨"A", [Segment.line ⟨0, 0⟩ ⟨1, 0⟩]⟩ ⟨"B", [Segment.line ⟨10, 0⟩ ⟨11, 0⟩]⟩
    ⟨0, 0⟩ (by decide)

/-! ### C3: the cross-profile merge ray cast -/

lemma atan2_zero_one : atan2 0 1 = 0 := by
  rw [atan2, show (⟨1, 0⟩ : ℂ) = 1 from rfl, Complex.arg_one]

lemma normalizeAngle_zero : normalizeAngle 0 = 0 := by
  rw [normalizeAngle, jsMod]
  norm_num

lemma sampleSq :
    sampleProfilePoints ⟨"B", [Segment.line ⟨9, -1⟩ ⟨11, -1⟩, Segment.line ⟨11, -1⟩ ⟨11, 1⟩,
        Segment.line ⟨11, 1⟩ ⟨9, 1⟩, Segment.line ⟨9, 1⟩ ⟨9, -1⟩]⟩ ⟨0, 0⟩ =
      [⟨9, -1⟩, ⟨11, -1⟩, ⟨11, 1⟩, ⟨9, 1⟩, ⟨9, -1⟩] := by
  rw [sampleProfilePoints]
  simp only [List.foldl_cons, List.foldl_nil, samplePointsOfSeg, segStart,
    List.singleton_append, List.cons_append, List.nil_append]
  rw [closeLoop]
  rw [show (([⟨11, -1⟩, ⟨11, 1⟩, ⟨9, 1⟩, ⟨9, -1⟩] : List Point2).getLast
    (List.cons_ne_nil _ _)) = (⟨9, -1⟩ : Point2) from rfl]
  rw [if_neg (by norm_num [hypot2, Real.sqrt_zero])]

lemma centroidSq :
    compute2DCentroid [⟨9, -1⟩, ⟨11, -1⟩, ⟨11, 1⟩, ⟨9, 1⟩, ⟨9, -1⟩] =
      (⟨49 / 5, -1 / 5⟩ : Point2) := by
  simp [compute2DCentroid]
  norm_num

lemma interSq :
    intersectProfileWithRay ⟨1 - (1 / 3 : ℝ), 0 - (0 : ℝ)⟩
      [⟨9, -1⟩, ⟨11, -1⟩, ⟨11, 1⟩, ⟨9, 1⟩, ⟨9, -1⟩] = some ⟨94 / 5, -1 / 5⟩ := by
  rw [intersectProfileWithRay]
  dsimp only
  rw [if_neg (by norm_num)]
  rw [centroidSq]
  rw [show hypot2 ((1 : ℝ) - 1 / 3) (0 - 0) = 2 / 3 by
    rw [show (1 : ℝ) - 1 / 3 = 2 / 3 by norm_num, show (0 : ℝ) - 0 = 0 by norm_num,
      hypot2_x_zero]
    norm_num]
  rw [if_neg (by norm_num)]
  norm_num [bestHitLoop, bestUpdate, raySegmentIntersection, List.zip, List.zipWith]

/-- C3, counterexample: in the merge of profile A (the segment `(0,0)→(1,0)`)
with the square profile B around `(10,0)`, the recorded partner of A's point
`(1,0)` is `(94/5, -1/5)` — a point produced by a ray that starts at B's
centroid and measures the segments from the coordinate origin — whereas the
spec's rule (ray from A's centroid through the point, smallest positive
parameter) yields `(9,0)`. -/
theorem C3_counterexample :
    (⟨0, ⟨1, 0⟩, ⟨94 / 5, -1 / 5⟩⟩ : MergedPair) ∈
      mergeProfilesByAngle ⟨"A", [Segment.line ⟨0, 0⟩ ⟨1, 0⟩]⟩
        ⟨"B", [Segment.line ⟨9, -1⟩ ⟨11, -1⟩, Segment.line ⟨11, -1⟩ ⟨11, 1⟩,
          Segment.line ⟨11, 1⟩ ⟨9, 1⟩, Segment.line ⟨9, 1⟩ ⟨9, -1⟩]⟩ ⟨0, 0⟩ ∧
    specRayCorrespondence
      (compute2DCentroid (sampleProfilePoints ⟨"A", [Segment.line ⟨0, 0⟩ ⟨1, 0⟩]⟩ ⟨0, 0⟩))
      ⟨1, 0⟩
      (sampleProfilePoints ⟨"B", [Segment.line ⟨9, -1⟩ ⟨11, -1⟩, Segment.line ⟨11, -1⟩ ⟨11, 1⟩,
        Segment.line ⟨11, 1⟩ ⟨9, 1⟩, Segment.line ⟨9, 1⟩ ⟨9, -1⟩]⟩ ⟨0, 0⟩) =
      some ⟨9, 0⟩ ∧
    (⟨94 / 5, -1 / 5⟩ : Point2) ≠ (⟨9, 0⟩ : Point2) := by
  refine ⟨?_, ?_, by simp⟩
  · rw [mergeProfilesByAngle]
    try dsimp only
    rw [sampleA, sampleSq, List.mem_insertionSort, List.mem_append]
    left
    rw [collectPass, List.mem_filterMap]
    refine ⟨⟨1, 0⟩, by simp, ?_⟩
    dsimp only
    rw [centroidA]
    dsimp only
    rw [interSq]
    simp [atan2_zero_one, normalizeAngle_zero]
  · rw [sampleA, sampleSq, centroidA, specRayCorrespondence]
    dsimp only
    norm_num [specRaySegHit, List.zip, List.zipWith, List.min?, min_def,
      List.filterMap_cons, List.filterMap_nil, List.foldl_cons, List.foldl_nil]

lemma prod_eq_fst {α β : Type} {a c : α} {b d : β} (h : (a, b) = (c, d)) : a = c :=
  congrArg Prod.fst h

lemma prod_eq_snd {α β : Type} {a c : α} {b d : β} (h : (a, b) = (c, d)) : b = d :=
  congrArg Prod.snd h

lemma raySegmentIntersection_point (origin dir a b : Point2) (t : ℝ) (q : Point2)
    (h : raySegmentIntersection origin dir a b = some (t, q)) :
    q = ⟨origin.x + dir.x * t, origin.y + dir.y * t⟩ := by
  rw [raySegmentIntersection] at h
  dsimp only at h
  split at h
  · exact Option.noConfusion h
  · split at h
    · exact Option.noConfusion h
    · obtain h' := Option.some.inj h
      obtain ⟨h1, h2⟩ := Prod.mk.injEq _ _ _ _ ▸ h'
      rw [← h2, h1]

lemma bestHitLoop_spec (origin dir : Point2) (pairs : List (Point2 × Point2)) :
    ∀ (acc : Option (ℝ × Point2)) (t : ℝ) (q : Point2),
    bestHitLoop origin dir pairs acc = some (t, q) →
    (acc = some (t, q) ∨
      ∃ ab ∈ pairs, raySegmentIntersection origin dir ab.1 ab.2 = some (t, q) ∧ 0 ≤ t) ∧
    (∀ bt bq, acc = some (bt, bq) → t ≤ bt) ∧
    (∀ ab ∈ pairs, ∀ t' q',
      raySegmentIntersection origin dir ab.1 ab.2 = some (t', q') → 0 ≤ t' → t ≤ t') := by
  induction pairs with
  | nil =>
    intro acc t q h
    rw [bestHitLoop] at h
    refine ⟨Or.inl h, ?_, by simp⟩
    intro bt bq hb
    rw [h] at hb
    exact le_of_eq (prod_eq_fst (Option.some.inj hb))
  | cons ab rest ih =>
    intro acc t q h
    rw [bestHitLoop] at h
    obtain ⟨ihA, ihB, ihC⟩ := ih _ t q h
    rcases hX : raySegmentIntersection origin dir ab.1 ab.2 with _ | ⟨ht, hq⟩
    · rw [hX, bestUpdate] at ihA ihB
      refine ⟨ihA.imp id ?_, ihB, ?_⟩
      · rintro ⟨ab', hab', hrest⟩
        exact ⟨ab', List.mem_cons_of_mem _ hab', hrest⟩
      · intro ab' hab' t' q' hray ht'
        rcases List.mem_cons.mp hab' with rfl | hab'
        · rw [hX] at hray
          exact Option.noConfusion hray
        · exact ihC ab' hab' t' q' hray ht'
    · rw [hX] at ihA ihB
      rcases hacc : acc with _ | ⟨bt, bq⟩

      · rw [hacc, bestUpdate] at ihA ihB
        by_cases hpos : 0 ≤ ht
        · rw [if_pos hpos] at ihA ihB
          have hmin : t ≤ ht := ihB ht hq rfl
          refine ⟨?_, by simp, ?_⟩
          · rcases ihA with heq | ⟨ab', hab', hrest⟩
            · have h1 := prod_eq_fst (Option.some.inj heq)
              have h2 := prod_eq_snd (Option.some.inj heq)
              exact Or.inr ⟨ab, List.mem_cons_self _ _, by rw [hX, h1, h2], h1 ▸ hpos⟩
            · exact Or.inr ⟨ab', List.mem_cons_of_mem _ hab', hrest⟩
          · intro ab' hab' t' q' hray ht'
            rcases List.mem_cons.mp hab' with rfl | hab'
            · rw [hX] at hray
              have h1 := prod_eq_fst (Option.some.inj hray)
              exact h1 ▸ hmin
            · exact ihC ab' hab' t' q' hray ht'
        · rw [if_neg hpos] at ihA ihB
          refine ⟨?_, by simp, ?_⟩
          · rcases ihA with heq | ⟨ab', hab', hrest⟩
            · exact Option.noConfusion heq
            · exact Or.inr ⟨ab', List.mem_cons_of_mem _ hab', hrest⟩
          · intro ab' hab' t' q' hray ht'
            rcases List.mem_cons.mp hab' with rfl | hab'
            · rw [hX] at hray
              have h1 := prod_eq_fst (Option.some.inj hray)
              exact absurd (h1 ▸ ht') hpos
            · exact ihC ab' hab' t' q' hray ht'
      · rw [hacc, bestUpdate] at ihA ihB
        by_cases hcond : 0 ≤ ht ∧ ht < bt
        · rw [if_pos hcond] at ihA ihB
          have hmin : t ≤ ht := ihB ht hq rfl
          refine ⟨?_, ?_, ?_⟩
          · rcases ihA with heq | ⟨ab', hab', hrest⟩
            · have h1 := prod_eq_fst (Option.some.inj heq)
              have h2 := prod_eq_snd (Option.some.inj heq)
              exact Or.inr ⟨ab, List.mem_cons_self _ _, by rw [hX, h1, h2], h1 ▸ hcond.1⟩
            · exact Or.inr ⟨ab', List.mem_cons_of_mem _ hab', hrest⟩
          · intro bt' bq' hb
            have h1 := prod_eq_fst (Option.some.inj hb)
            exact h1 ▸ le_of_lt (lt_of_le_of_lt hmin hcond.2)
          · intro ab' hab' t' q' hray ht'
            rcases List.mem_cons.mp hab' with rfl | hab'
            · rw [hX] at hray
              have h1 := prod_eq_fst (Option.some.inj hray)
              exact h1 ▸ hmin
            · exact ihC ab' hab' t' q' hray ht'
        · rw [if_neg hcond] at ihA ihB
          have hminb : t ≤ bt := ihB bt bq rfl
          refine ⟨?_, ?_, ?_⟩
          · rcases ihA with heq | ⟨ab', hab', hrest⟩
            · exact Or.inl heq
            · exact Or.inr ⟨ab', List.mem_cons_of_mem _ hab', hrest⟩
          · intro bt' bq' hb
            have h1 := prod_eq_fst (Option.some.inj hb)
            exact h1 ▸ hminb
          · intro ab' hab' t' q' hray ht'
            rcases List.mem_cons.mp hab' with rfl | hab'
            · rw [hX] at hray
              have h1 := prod_eq_fst (Option.some.inj hray)
              subst h1
              rcases not_and_or.mp hcond with hc | hc
              · exact absurd ht' hc
              · exact le_trans hminb (not_lt.mp hc)
            · exact ihC ab' hab' t' q' hray ht'

/-- C3, amended: when `intersectProfileWithRay` (the merge's ray cast for a
source point, called with `tp = p - centroidA`) returns a match, the match is
`centroid(B) + normalize(tp) * t` — the ray *starts at B's centroid*, not A's —
where `t` is produced by the code's per-segment determinant solve and is
minimal among all segment hits with non-negative parameter. -/
theorem C3_amended (tp : Point2) (p0 : Point2) (prest : List Point2) (q : Point2)
    (h : intersectProfileWithRay tp (p0 :: prest) = some q) :
    ∃ t : ℝ, 0 ≤ t ∧
      q = ⟨(compute2DCentroid (p0 :: prest)).x + tp.x / hypot2 tp.x tp.y * t,
           (compute2DCentroid (p0 :: prest)).y + tp.y / hypot2 tp.x tp.y * t⟩ ∧
      (∃ ab ∈ (p0 :: prest).zip (p0 :: prest).tail,
        raySegmentIntersection (compute2DCentroid (p0 :: prest))
          ⟨tp.x / hypot2 tp.x tp.y, tp.y / hypot2 tp.x tp.y⟩ ab.1 ab.2 = some (t, q)) ∧
      ∀ ab ∈ (p0 :: prest).zip (p0 :: prest).tail, ∀ t' q',
        raySegmentIntersection (compute2DCentroid (p0 :: prest))
          ⟨tp.x / hypot2 tp.x tp.y, tp.y / hypot2 tp.x tp.y⟩ ab.1 ab.2 = some (t', q') →
        0 ≤ t' → t ≤ t' := by
  rw [intersectProfileWithRay] at h
  dsimp only at h
  split at h
  · exact Option.noConfusion h
  · split at h
    · exact Option.noConfusion h
    · rename_i hguard hmag
      rcases hloop : bestHitLoop (compute2DCentroid (p0 :: prest))
          ⟨tp.x / hypot2 tp.x tp.y, tp.y / hypot2 tp.x tp.y⟩
          ((p0 :: prest).zip (p0 :: prest).tail) none with _ | best
      · rw [hloop] at h
        exact Option.noConfusion h
      · rw [hloop] at h
        obtain hq := Option.some.inj h
        have hloop' : bestHitLoop (compute2DCentroid (p0 :: prest))
            ⟨tp.x / hypot2 tp.x tp.y, tp.y / hypot2 tp.x tp.y⟩
            ((p0 :: prest).zip (p0 :: prest).tail) none = some (best.1, q) := by
          rw [hloop, ← hq]
        obtain ⟨hA, -, hC⟩ := bestHitLoop_spec _ _ _ none best.1 q hloop'
        rcases hA with heq | ⟨ab, hab, hray, hpos⟩
        · exact Option.noConfusion heq
        · refine ⟨best.1, hpos, ?_, ⟨ab, hab, hray⟩, hC⟩
          exact raySegmentIntersection_point _ _ _ _ _ _ hray

/-- Witness for C3's amended ray characterisation at a concrete cast. -/
theorem C3_amended_witness :
    ∃ t : ℝ, 0 ≤ t ∧
      (⟨10, 0⟩ : Point2) =
        ⟨(compute2DCentroid [⟨5, -1⟩, ⟨5, 1⟩]).x +
            (⟨2, 0⟩ : Point2).x / hypot2 (⟨2, 0⟩ : Point2).x (⟨2, 0⟩ : Point2).y * t,
          (compute2DCentroid [⟨5, -1⟩, ⟨5, 1⟩]).y +
            (⟨2, 0⟩ : Point2).y / hypot2 (⟨2, 0⟩ : Point2).x (⟨2, 0⟩ : Point2).y * t⟩ ∧
      (∃ ab ∈ ([⟨5, -1⟩, ⟨5, 1⟩] : List Point2).zip ([⟨5, -1⟩, ⟨5, 1⟩] : List Point2).tail,
        raySegmentIntersection (compute2DCentroid [⟨5, -1⟩, ⟨5, 1⟩])
          ⟨(⟨2, 0⟩ : Point2).x / hypot2 (⟨2, 0⟩ : Point2).x (⟨2, 0⟩ : Point2).y,
            (⟨2, 0⟩ : Point2).y / hypot2 (⟨2, 0⟩ : Point2).x (⟨2, 0⟩ : Point2).y⟩ ab.1 ab.2 =
          some (t, ⟨10, 0⟩)) ∧
      ∀ ab ∈ ([⟨5, -1⟩, ⟨5, 1⟩] : List Point2).zip ([⟨5, -1⟩, ⟨5, 1⟩] : List Point2).tail,
        ∀ t' q',
        raySegmentIntersection (compute2DCentroid [⟨5, -1⟩, ⟨5, 1⟩])
          ⟨(⟨2, 0⟩ : Point2).x / hypot2 (⟨2, 0⟩ : Point2).x (⟨2, 0⟩ : Point2).y,
            (⟨2, 0⟩ : Point2).y / hypot2 (⟨2, 0⟩ : Point2).x (⟨2, 0⟩ : Point2).y⟩ ab.1 ab.2 =
          some (t', q') →
        0 ≤ t' → t ≤ t' := by
  apply C3_amended ⟨2, 0⟩ ⟨5, -1⟩ [⟨5, 1⟩] ⟨10, 0⟩
  rw [intersectProfileWithRay]
  dsimp only
  rw [if_neg (by norm_num)]
  rw [show compute2DCentroid [⟨5, -1⟩, ⟨5, 1⟩] = (⟨5, 0⟩ : Point2) by
    simp [compute2DCentroid]
    try norm_num]
  rw [show hypot2 (⟨2, 0⟩ : Point2).x (⟨2, 0⟩ : Point2).y = 2 by
    rw [show (⟨2, 0⟩ : Point2).x = (2 : ℝ) from rfl, show (⟨2, 0⟩ : Point2).y = (0 : ℝ) from rfl,
      hypot2_x_zero]
    norm_num]
  rw [if_neg (by norm_num)]
  norm_num [bestHitLoop, bestUpdate, raySegmentIntersection, List.zip, List.zipWith]

/-! ### Witness evaluation for C6 -/

lemma sampleP :
    sampleProfilePoints ⟨"P", [Segment.line ⟨0, 0⟩ ⟨1, 0⟩]⟩ ⟨0, 0⟩ =
      [⟨0, 0⟩, ⟨1, 0⟩, ⟨0, 0⟩] := by
  rw [sampleProfilePoints]
  simp only [List.foldl_cons, List.foldl_nil, samplePointsOfSeg, segStart,
    List.singleton_append]
  rw [closeLoop]
  simp only [List.getLast_singleton]
  have hgap : hypot2 ((⟨0, 0⟩ : Point2).x - (⟨1, 0⟩ : Point2).x)
      ((⟨0, 0⟩ : Point2).y - (⟨1, 0⟩ : Point2).y) > 1e-6 := by
    rw [show (⟨0, 0⟩ : Point2).x - (⟨1, 0⟩ : Point2).x = (-1 : ℝ) from by norm_num,
      show (⟨0, 0⟩ : Point2).y - (⟨1, 0⟩ : Point2).y = (0 : ℝ) from by norm_num,
      hypot2_x_zero]
    norm_num
  rw [if_pos hgap]
  rfl

lemma axis3D_empty (len : ℝ) : getAxis3DPointsAtLength [] [] len = (⟨0, 0, 0⟩ : Vec3) := rfl

lemma frame_degenerate :
    buildPerpendicularAxes ⟨0, 0, 0⟩ ⟨0, 0, 0⟩ =
      (⟨⟨1, 0, 0⟩, ⟨0, 0, 0⟩, ⟨0, 0, 0⟩⟩ : Frame3) := by
  rw [buildPerpendicularAxes]
  rw [show normalizeVec3 ⟨(0:ℝ) - 0, (0:ℝ) - 0, (0:ℝ) - 0⟩ = (⟨0, 0, 0⟩ : Vec3) by
    rw [normalizeVec3]
    rw [show hypot3 ((0:ℝ) - 0) ((0:ℝ) - 0) ((0:ℝ) - 0) = 0 by rw [hypot3]; norm_num]
    norm_num]
  rw [show cross ⟨0, 0, 0⟩ ⟨1, 0, 0⟩ = (⟨0, 0, 0⟩ : Vec3) by rw [cross]; norm_num]
  rw [show normalizeVec3 ⟨0, 0, 0⟩ = (⟨0, 0, 0⟩ : Vec3) by
    rw [normalizeVec3]
    rw [show hypot3 (0:ℝ) 0 0 = 0 by rw [hypot3]; norm_num]
    norm_num]
  rw [dot]
  norm_num

/-- Witness for C6: a concrete successful run of the section builder (empty
axis, one profile used at both ends) whose two rings have equal counts. -/
theorem C6_ring_consistency_witness :
    ∃ r : SectionResult,
      buildProfileSection3DRange [] [] [⟨0, "P"⟩, ⟨1, "P"⟩]
        [⟨"P", [Segment.line ⟨0, 0⟩ ⟨1, 0⟩]⟩] 0 1 none ⟨0, 0⟩ = some r ∧
      r.profile1Points.length = r.profile2Points.length := by
  have hfindP : findProfile [⟨"P", [Segment.line ⟨0, 0⟩ ⟨1, 0⟩]⟩] "P" =
      some ⟨"P", [Segment.line ⟨0, 0⟩ ⟨1, 0⟩]⟩ := by
    rw [findProfile, List.find?_cons_of_pos _ (by decide)]
  have hfb0 : findBracket 0 [(⟨0, "P"⟩ : ProfileAssignment), ⟨1, "P"⟩] =
      some (⟨0, "P"⟩, ⟨1, "P"⟩) := by
    rw [findBracket, if_pos (by constructor <;> norm_num)]
  have hfb1 : findBracket (99999999 / 100000000 : ℝ)
      [(⟨0, "P"⟩ : ProfileAssignment), ⟨1, "P"⟩] = some (⟨0, "P"⟩, ⟨1, "P"⟩) := by
    rw [findBracket, if_pos (by constructor <;> norm_num)]
  have hintA : interpolateProfileAtLength 0 [⟨0, "P"⟩, ⟨1, "P"⟩]
      [⟨"P", [Segment.line ⟨0, 0⟩ ⟨1, 0⟩]⟩] ⟨0, 0⟩ true = some [⟨0, 0⟩, ⟨1, 0⟩, ⟨0, 0⟩] := by
    norm_num [interpolateProfileAtLength.eq_def,
      sortPA_two 0 1 "P" "P" (by norm_num : (0:ℝ) ≤ 1), hfb0,
      List.getLast_cons, List.getLast_singleton, hfindP, sampleP]
  have hintB : interpolateProfileAtLength 1 [⟨0, "P"⟩, ⟨1, "P"⟩]
      [⟨"P", [Segment.line ⟨0, 0⟩ ⟨1, 0⟩]⟩] ⟨0, 0⟩ false = some [⟨0, 0⟩, ⟨1, 0⟩, ⟨0, 0⟩] := by
    norm_num [interpolateProfileAtLength.eq_def,
      sortPA_two 0 1 "P" "P" (by norm_num : (0:ℝ) ≤ 1), hfb1,
      List.getLast_cons, List.getLast_singleton, hfindP, sampleP]
  have hbuild : buildProfileSection3DRange [] [] [⟨0, "P"⟩, ⟨1, "P"⟩]
      [⟨"P", [Segment.line ⟨0, 0⟩ ⟨1, 0⟩]⟩] 0 1 none ⟨0, 0⟩ =
      some { frame := ⟨⟨1, 0, 0⟩, ⟨0, 0, 0⟩, ⟨0, 0, 0⟩, ⟨0, 0, 0⟩, ⟨0, 0, 0⟩⟩,
             profile1Points := [⟨0, 0, 0⟩, ⟨1, 0, 0⟩, ⟨0, 0, 0⟩],
             profile2Points := [⟨0, 0, 0⟩, ⟨1, 0, 0⟩, ⟨0, 0, 0⟩] } := by
    rw [buildProfileSection3DRange.eq_def]
    norm_num [hintA, hintB, axis3D_empty, frame_degenerate, projectProfile]
  exact ⟨_, hbuild,
    C6_ring_consistency [] [] [⟨0, "P"⟩, ⟨1, "P"⟩] [⟨"P", [Segment.line ⟨0, 0⟩ ⟨1, 0⟩]⟩]
      0 1 none ⟨0, 0⟩ _ hbuild⟩


/-! ### C1: axis endpoint identity -/

lemma arcCenter_geom (s e : Point2) (r : ℝ) (c : Point2)
    (hc : calculateArcCenter s e r = some c) :
    ∃ d h : ℝ, 0 < d ∧ 0 ≤ h ∧ d ≤ 2 * |r| ∧
      d ^ 2 = (e.x - s.x) ^ 2 + (e.y - s.y) ^ 2 ∧
      h ^ 2 = r ^ 2 - (d / 2) ^ 2 ∧
      d = Real.sqrt ((e.x - s.x) ^ 2 + (e.y - s.y) ^ 2) ∧
      ((s.x - c.x) ^ 2 + (s.y - c.y) ^ 2 = r ^ 2) ∧
      ((e.x - c.x) ^ 2 + (e.y - c.y) ^ 2 = r ^ 2) ∧
      ((s.x - c.x) * (e.x - c.x) + (s.y - c.y) * (e.y - c.y) = h ^ 2 - (d / 2) ^ 2) ∧
      ((s.x - c.x) * (e.y - c.y) - (e.x - c.x) * (s.y - c.y) =
        (if r ≥ 0 then 1 else -1) * h * d) := by
  rw [calculateArcCenter] at hc
  by_cases h0 : |r| = 0
  · rw [if_pos h0] at hc
    exact Option.noConfusion hc
  rw [if_neg h0] at hc
  dsimp only at hc
  by_cases hcond : Real.sqrt ((e.x - s.x) ^ 2 + (e.y - s.y) ^ 2) > 2 * |r| ∨
      Real.sqrt ((e.x - s.x) ^ 2 + (e.y - s.y) ^ 2) = 0
  · rw [if_pos hcond] at hc
    exact Option.noConfusion hc
  rw [if_neg hcond] at hc
  push_neg at hcond
  obtain ⟨hle, hdne⟩ := hcond
  set d := Real.sqrt ((e.x - s.x) ^ 2 + (e.y - s.y) ^ 2) with hddef
  have hdpos : 0 < d := lt_of_le_of_ne (Real.sqrt_nonneg _) (Ne.symm hdne)
  have hdd : d ^ 2 = (e.x - s.x) ^ 2 + (e.y - s.y) ^ 2 := Real.sq_sqrt (by positivity)
  have hge : 0 ≤ |r| ^ 2 - (d / 2) ^ 2 := by
    have h1 : (d / 2) ^ 2 ≤ |r| ^ 2 := pow_le_pow_left₀ (by positivity) (by linarith) 2
    linarith
  have hh2 : (Real.sqrt (|r| ^ 2 - (d / 2) ^ 2)) ^ 2 = r ^ 2 - (d / 2) ^ 2 := by
    rw [Real.sq_sqrt hge, sq_abs]
  set h := Real.sqrt (|r| ^ 2 - (d / 2) ^ 2) with hhdef
  obtain hceq := (Option.some.inj hc).symm
  refine ⟨d, h, hdpos, Real.sqrt_nonneg _, hle, hdd, hh2, hddef, ?_, ?_, ?_, ?_⟩
  · rw [hceq]
    dsimp only
    rcases le_or_lt 0 r with hrs | hrs
    · rw [if_pos (show r ≥ 0 from hrs)]
      field_simp
      linear_combination (-(d ^ 2 + 4 * h ^ 2)) * hdd + 4 * d ^ 2 * hh2
    · rw [if_neg (show ¬ r ≥ 0 from not_le.mpr hrs)]
      field_simp
      linear_combination (-(d ^ 2 + 4 * h ^ 2)) * hdd + 4 * d ^ 2 * hh2
  · rw [hceq]
    dsimp only
    rcases le_or_lt 0 r with hrs | hrs
    · rw [if_pos (show r ≥ 0 from hrs)]
      field_simp
      linear_combination (-(d ^ 2 + 4 * h ^ 2)) * hdd + 4 * d ^ 2 * hh2
    · rw [if_neg (show ¬ r ≥ 0 from not_le.mpr hrs)]
      field_simp
      linear_combination (-(d ^ 2 + 4 * h ^ 2)) * hdd + 4 * d ^ 2 * hh2
  · rw [hceq]
    dsimp only
    rcases le_or_lt 0 r with hrs | hrs
    · rw [if_pos (show r ≥ 0 from hrs)]
      field_simp
      linear_combination (4 * d ^ 2 - 16 * h ^ 2) * hdd
    · rw [if_neg (show ¬ r ≥ 0 from not_le.mpr hrs)]
      field_simp
      linear_combination (4 * d ^ 2 - 16 * h ^ 2) * hdd
  · rw [hceq]
    dsimp only
    rcases le_or_lt 0 r with hrs | hrs
    · rw [if_pos (show r ≥ 0 from hrs)]
      field_simp
      linear_combination (-(4 * h * d)) * hdd
    · rw [if_neg (show ¬ r ≥ 0 from not_le.mpr hrs)]
      field_simp
      linear_combination (4 * h * d) * hdd


lemma int_window {k : ℤ} (hlo : (-1 : ℝ) < k) (hhi : (k : ℝ) < 1) : k = 0 := by
  have h1 : (-1 : ℤ) < k := by exact_mod_cast hlo
  have h2 : k < (1 : ℤ) := by exact_mod_cast hhi
  omega

lemma close_mod_eq (n : ℤ) {a b : ℝ} (h : a - b = 2 * π * n)
    (h1 : -(2 * π) < a - b) (h2 : a - b < 2 * π) : a = b := by
  have hpi := Real.pi_pos
  have hn1 : (-1 : ℝ) < (n : ℝ) := by nlinarith
  have hn2 : ((n : ℝ)) < 1 := by nlinarith
  have hn0 : n = 0 := int_window hn1 hn2
  rw [hn0] at h
  push_cast at h
  linarith

set_option maxHeartbeats 1000000 in
lemma arcAngleSpan_eq (s e : Point2) (r : ℝ) (c : Point2) (hr : r ≠ 0)
    (hc : calculateArcCenter s e r = some c) :
    |arcAngleSpan s e c r| =
      2 * Real.arcsin (min 1 (Real.sqrt ((e.x - s.x) ^ 2 + (e.y - s.y) ^ 2) / (2 * |r|))) ∧
    ∃ k : ℤ, arcAngleSpan s e c r =
      atan2 (e.y - c.y) (e.x - c.x) - atan2 (s.y - c.y) (s.x - c.x) + 2 * π * k := by
  obtain ⟨d, h, hdpos, hhnn, hle, hdd, hh2, hddef, hs2, he2, hdot, hcross⟩ :=
    arcCenter_geom s e r c hc
  have hrabs : (0 : ℝ) < |r| := abs_pos.mpr hr
  have hr2 : (0 : ℝ) < r ^ 2 := by positivity
  have hpi : (0 : ℝ) < π := Real.pi_pos
  set z1 : ℂ := ⟨s.x - c.x, s.y - c.y⟩ with hz1def
  set z2 : ℂ := ⟨e.x - c.x, e.y - c.y⟩ with hz2def
  have hns1 : Complex.normSq z1 = r ^ 2 := by
    rw [hz1def, Complex.normSq_mk]
    linear_combination hs2
  have hns2 : Complex.normSq z2 = r ^ 2 := by
    rw [hz2def, Complex.normSq_mk]
    linear_combination he2
  have hz1ne : z1 ≠ 0 := by
    intro h0
    rw [h0, map_zero] at hns1
    exact absurd hns1.symm (ne_of_gt hr2)
  have hz2ne : z2 ≠ 0 := by
    intro h0
    rw [h0, map_zero] at hns2
    exact absurd hns2.symm (ne_of_gt hr2)
  have habs1 : Complex.abs z1 = |r| := by
    rw [Complex.abs_apply, hns1, Real.sqrt_sq_eq_abs]
  have habs2 : Complex.abs z2 = |r| := by
    rw [Complex.abs_apply, hns2, Real.sqrt_sq_eq_abs]
  set w := z2 / z1 with hwdef
  have hwne : w ≠ 0 := div_ne_zero hz2ne hz1ne
  have hwre : w.re = (h ^ 2 - (d / 2) ^ 2) / r ^ 2 := by
    rw [hwdef, Complex.div_re, hns1]
    rw [show z2.re = e.x - c.x from rfl, show z2.im = e.y - c.y from rfl,
      show z1.re = s.x - c.x from rfl, show z1.im = s.y - c.y from rfl]
    rw [div_add_div_same]
    rw [show (e.x - c.x) * (s.x - c.x) + (e.y - c.y) * (s.y - c.y) = h ^ 2 - (d / 2) ^ 2 from by
      linear_combination hdot]
  have hwim : w.im = (if r ≥ 0 then 1 else -1) * h * d / r ^ 2 := by
    rw [hwdef, Complex.div_im, hns1]
    rw [show z2.re = e.x - c.x from rfl, show z2.im = e.y - c.y from rfl,
      show z1.re = s.x - c.x from rfl, show z1.im = s.y - c.y from rfl]
    rw [div_sub_div_same]
    rw [show (e.y - c.y) * (s.x - c.x) - (e.x - c.x) * (s.y - c.y) =
        (if r ≥ 0 then 1 else -1) * h * d from by linear_combination hcross]
  have habsw : Complex.abs w = 1 := by
    rw [hwdef, map_div₀, habs1, habs2, div_self (ne_of_gt hrabs)]
  have hcosw : Real.cos w.arg = (h ^ 2 - (d / 2) ^ 2) / r ^ 2 := by
    rw [Complex.cos_arg hwne, habsw, div_one, hwre]
  set x := d / (2 * |r|) with hxdef
  have hx0 : 0 < x := div_pos hdpos (by linarith)
  have hx1 : x ≤ 1 := by
    rw [hxdef, div_le_one (by linarith)]
    exact hle
  have hxmin : min 1 x = x := min_eq_right hx1
  have harcnn : 0 ≤ 2 * Real.arcsin x := by
    have := Real.arcsin_nonneg.mpr hx0.le
    linarith
  have harcle : 2 * Real.arcsin x ≤ π := by
    have := Real.arcsin_le_pi_div_two x
    linarith
  have hsqabs : |r| ^ 2 = r ^ 2 := sq_abs r
  have hx2 : x ^ 2 = d ^ 2 / (4 * r ^ 2) := by
    rw [hxdef, div_pow, mul_pow, hsqabs]
    norm_num
  have hcos_arc : Real.cos (2 * Real.arcsin x) = (h ^ 2 - (d / 2) ^ 2) / r ^ 2 := by
    rw [Real.cos_two_mul, Real.cos_arcsin, Real.sq_sqrt (by nlinarith), hx2]
    field_simp
    linear_combination (-16) * r ^ 2 * hh2
  have hwargle : w.arg ≤ π := Complex.arg_le_pi w
  have hwarggt : -π < w.arg := Complex.neg_pi_lt_arg w
  set δ := atan2 (e.y - c.y) (e.x - c.x) - atan2 (s.y - c.y) (s.x - c.x) with hδdef
  have hδz : δ = z2.arg - z1.arg := rfl
  have hδlt : δ < 2 * π := by
    have h1 := Complex.arg_le_pi z2
    have h2 := Complex.neg_pi_lt_arg z1
    rw [hδz]
    linarith
  have hδgt : -(2 * π) < δ := by
    have h1 := Complex.neg_pi_lt_arg z2
    have h2 := Complex.arg_le_pi z1
    rw [hδz]
    linarith
  have hcong : ∃ k : ℤ, w.arg = δ + 2 * π * k := by
    have h1 : ((w.arg : ℝ) : Real.Angle) = ((δ : ℝ) : Real.Angle) := by
      rw [hwdef, Complex.arg_div_coe_angle hz2ne hz1ne, hδz, Real.Angle.coe_sub]
    obtain ⟨k, hk⟩ := Real.Angle.angle_eq_iff_two_pi_dvd_sub.mp h1
    exact ⟨k, by linarith⟩
  obtain ⟨k, hk⟩ := hcong
  have hspan_def : arcAngleSpan s e c r =
      (if r < 0 ∧ (if r > 0 ∧ δ < 0 then δ + 2 * π else δ) > 0 then
        (if r > 0 ∧ δ < 0 then δ + 2 * π else δ) - 2 * π
      else (if r > 0 ∧ δ < 0 then δ + 2 * π else δ)) := rfl
  rw [← hddef, ← hxdef, hxmin]
  rcases lt_or_gt_of_ne hr with hneg | hpos
  · -- r < 0
    have hσ : (if r ≥ 0 then (1 : ℝ) else -1) = -1 := if_neg (not_le.mpr hneg)
    have hinner : (if r > 0 ∧ δ < 0 then δ + 2 * π else δ) = δ :=
      if_neg (fun hcon => absurd hcon.1 (not_lt.mpr hneg.le))
    rcases eq_or_lt_of_le hhnn with hh0 | hhpos
    · -- h = 0 : half circle, w.arg = π
      have hd2r : d = 2 * |r| := by
        have hfac : (d / 2 - |r|) * (d / 2 + |r|) = 0 := by
          linear_combination hh2 - sq_abs r + h * hh0
        rcases mul_eq_zero.mp hfac with h1 | h1
        · linarith
        · linarith [hdpos, hrabs]
      have h2r : (0 : ℝ) < 2 * |r| := by linarith
      have hx1' : x = 1 := by
        rw [hxdef, hd2r, div_self h2r.ne']
      have harc1 : 2 * Real.arcsin x = π := by
        rw [hx1', Real.arcsin_one]
        ring
      have hneg2 : h ^ 2 - (d / 2) ^ 2 < 0 := by
        rw [← hh0]
        nlinarith only [mul_pos hdpos hdpos, hh0]
      have hre : w.re < 0 := by
        rw [hwre]
        exact div_neg_of_neg_of_pos hneg2 hr2
      have him0 : w.im = 0 := by
        rw [hwim, ← hh0]
        ring
      have hargpi : w.arg = π := Complex.arg_eq_pi_iff.mpr ⟨hre, him0⟩
      have heq : 2 * π * (k : ℝ) = π - δ := by
        rw [hargpi] at hk
        linarith
      rw [hspan_def, hinner]
      by_cases hδp : δ > 0
      · rw [if_pos ⟨hneg, hδp⟩]
        have hk0 : k = 0 := by
          apply int_window
          · nlinarith only [hpi, hδlt, heq]
          · nlinarith only [hpi, hδp, heq]
        have hδπ : δ = π := by
          rw [hk0] at heq
          push_cast at heq
          linarith
        constructor
        · rw [harc1, hδπ, show π - 2 * π = -π from by ring, abs_neg, abs_of_pos hpi]
        · exact ⟨-1, by push_cast; ring⟩
      · rw [if_neg (fun hcon => hδp hcon.2)]
        push_neg at hδp
        have hk1 : k = 1 := by
          have hw : k - 1 = 0 := by
            apply int_window
            · push_cast
              nlinarith only [hpi, hδp, heq]
            · push_cast
              nlinarith only [hpi, hδgt, heq]
          omega
        have hδπ : δ = -π := by
          rw [hk1] at heq
          push_cast at heq
          linarith
        constructor
        · rw [harc1, hδπ, abs_neg, abs_of_pos hpi]
        · exact ⟨0, by push_cast; ring⟩
    · -- h > 0 : w.arg ∈ (-π, 0)
      have him : w.im < 0 := by
        have h1 : (0 : ℝ) < h * d / r ^ 2 := div_pos (mul_pos hhpos hdpos) hr2
        rw [hwim, hσ, show (-1 : ℝ) * h * d / r ^ 2 = -(h * d / r ^ 2) from by ring]
        exact neg_lt_zero.mpr h1
      have hargneg : w.arg < 0 := Complex.arg_neg_iff.mpr him
      have hspan : arcAngleSpan s e c r = w.arg := by
        rw [hspan_def, hinner]
        by_cases hδp : δ > 0
        · rw [if_pos ⟨hneg, hδp⟩]
          refine close_mod_eq (-1 - k) ?_ ?_ ?_
          · push_cast
            linear_combination -hk
          · linarith [hδp, hargneg]
          · linarith [hδlt, hwarggt, hpi]
        · push_neg at hδp
          rw [if_neg (fun hcon => absurd hδp (not_le.mpr hcon.2))]
          refine close_mod_eq (-k) ?_ ?_ ?_
          · push_cast
            linear_combination -hk
          · linarith [hδgt, hargneg]
          · linarith [hwarggt, hpi]
      have hnegspan : -w.arg = 2 * Real.arcsin x := by
        refine Real.injOn_cos ⟨by linarith, by linarith [hwarggt]⟩ ⟨harcnn, harcle⟩ ?_
        rw [Real.cos_neg]
        exact hcosw.trans hcos_arc.symm
      refine ⟨?_, k, by rw [hspan]; exact hk⟩
      rw [hspan, abs_of_neg hargneg, hnegspan]
  · -- r > 0 : w.arg ∈ [0, π]
    have hσ : (if r ≥ 0 then (1 : ℝ) else -1) = 1 := if_pos hpos.le
    have him : 0 ≤ w.im := by
      rw [hwim, hσ, one_mul]
      exact div_nonneg (mul_nonneg hhnn hdpos.le) (sq_nonneg r)
    have hargnn : 0 ≤ w.arg := Complex.arg_nonneg_iff.mpr him
    have hspan : arcAngleSpan s e c r = w.arg := by
      rw [hspan_def]
      have houter : ¬ (r < 0 ∧ (if r > 0 ∧ δ < 0 then δ + 2 * π else δ) > 0) := by
        rintro ⟨hrn, -⟩
        linarith
      rw [if_neg houter]
      by_cases hδn : δ < 0
      · rw [if_pos ⟨hpos, hδn⟩]
        refine close_mod_eq (1 - k) ?_ ?_ ?_
        · push_cast
          linear_combination -hk
        · linarith [hδgt, hwargle, hpi]
        · linarith [hδn, hargnn]
      · rw [if_neg (fun hcon => hδn hcon.2)]
        push_neg at hδn
        refine close_mod_eq (-k) ?_ ?_ ?_
        · push_cast
          linear_combination -hk
        · linarith [hwargle, hpi]
        · linarith [hδlt, hargnn]
    refine ⟨?_, k, by rw [hspan]; exact hk⟩
    rw [hspan, abs_of_nonneg hargnn]
    exact Real.injOn_cos ⟨hargnn, hwargle⟩ ⟨harcnn, harcle⟩ (hcosw.trans hcos_arc.symm)

lemma hypot2_nonneg (x y : ℝ) : 0 ≤ hypot2 x y := Real.sqrt_nonneg _

lemma segLength_pos (seg : Segment) (hv : ValidSeg seg) : 0 < segLength seg := by
  cases seg with
  | line s e =>
    exact lt_of_le_of_ne (hypot2_nonneg _ _) (Ne.symm hv)
  | arc s e r =>
    obtain ⟨hr, hch, hle⟩ := hv
    have hchpos : 0 < hypot2 (e.x - s.x) (e.y - s.y) :=
      lt_of_le_of_ne (hypot2_nonneg _ _) (Ne.symm hch)
    have hrabs : (0 : ℝ) < |r| := abs_pos.mpr hr
    rw [segLength, if_neg hr]
    dsimp only
    rw [if_neg hch]
    have hmin : 0 < min 1 (hypot2 (e.x - s.x) (e.y - s.y) / (2 * |r|)) :=
      lt_min one_pos (div_pos hchpos (by linarith))
    exact mul_pos hrabs (by linarith [Real.arcsin_pos.mpr hmin])

lemma arcCenter_isSome (s e : Point2) (r : ℝ) (hr : r ≠ 0)
    (hch : hypot2 (e.x - s.x) (e.y - s.y) ≠ 0)
    (hle : hypot2 (e.x - s.x) (e.y - s.y) ≤ 2 * |r|) :
    ∃ c, calculateArcCenter s e r = some c := by
  rw [hypot2] at hch hle
  cases hopt : calculateArcCenter s e r with
  | some c => exact ⟨c, rfl⟩
  | none =>
    exfalso
    rw [calculateArcCenter, if_neg (abs_ne_zero.mpr hr)] at hopt
    dsimp only at hopt
    rw [if_neg (not_or.mpr ⟨not_lt.mpr hle, hch⟩)] at hopt
    exact Option.noConfusion hopt

lemma arc_walk_facts (s e : Point2) (r : ℝ) (c : Point2) (hr : r ≠ 0)
    (hc : calculateArcCenter s e r = some c) :
    (⟨c.x + |r| * Real.cos (atan2 (s.y - c.y) (s.x - c.x)),
      c.y + |r| * Real.sin (atan2 (s.y - c.y) (s.x - c.x))⟩ : Point2) = s ∧
    (⟨c.x + |r| * Real.cos (atan2 (s.y - c.y) (s.x - c.x) + arcAngleSpan s e c r),
      c.y + |r| * Real.sin (atan2 (s.y - c.y) (s.x - c.x) + arcAngleSpan s e c r)⟩ :
        Point2) = e ∧
    |arcAngleSpan s e c r| * |r| = segLength (.arc s e r) ∧
    0 < |arcAngleSpan s e c r| * |r| := by
  obtain ⟨d, h, hdpos, hhnn, hle, hdd, hh2, hddef, hs2, he2, hdot, hcross⟩ :=
    arcCenter_geom s e r c hc
  have hrabs : (0 : ℝ) < |r| := abs_pos.mpr hr
  have hr2 : (0 : ℝ) < r ^ 2 := by positivity
  obtain ⟨habs, k, hspan⟩ := arcAngleSpan_eq s e r c hr hc
  set z1 : ℂ := ⟨s.x - c.x, s.y - c.y⟩ with hz1def
  set z2 : ℂ := ⟨e.x - c.x, e.y - c.y⟩ with hz2def
  have hns1 : Complex.normSq z1 = r ^ 2 := by
    rw [hz1def, Complex.normSq_mk]
    linear_combination hs2
  have hns2 : Complex.normSq z2 = r ^ 2 := by
    rw [hz2def, Complex.normSq_mk]
    linear_combination he2
  have hz1ne : z1 ≠ 0 := by
    intro h0
    rw [h0, map_zero] at hns1
    exact absurd hns1.symm (ne_of_gt hr2)
  have hz2ne : z2 ≠ 0 := by
    intro h0
    rw [h0, map_zero] at hns2
    exact absurd hns2.symm (ne_of_gt hr2)
  have habs1 : Complex.abs z1 = |r| := by
    rw [Complex.abs_apply, hns1, Real.sqrt_sq_eq_abs]
  have habs2 : Complex.abs z2 = |r| := by
    rw [Complex.abs_apply, hns2, Real.sqrt_sq_eq_abs]
  have hcos1 : |r| * Real.cos (Complex.arg z1) = s.x - c.x := by
    rw [Complex.cos_arg hz1ne, habs1, mul_comm, div_mul_cancel₀ _ hrabs.ne']
  have hsin1 : |r| * Real.sin (Complex.arg z1) = s.y - c.y := by
    rw [Complex.sin_arg, habs1, mul_comm, div_mul_cancel₀ _ hrabs.ne']
  have hcos2 : |r| * Real.cos (Complex.arg z2) = e.x - c.x := by
    rw [Complex.cos_arg hz2ne, habs2, mul_comm, div_mul_cancel₀ _ hrabs.ne']
  have hsin2 : |r| * Real.sin (Complex.arg z2) = e.y - c.y := by
    rw [Complex.sin_arg, habs2, mul_comm, div_mul_cancel₀ _ hrabs.ne']
  have hch_eq : hypot2 (e.x - s.x) (e.y - s.y) = d := hddef.symm
  have hchne : hypot2 (e.x - s.x) (e.y - s.y) ≠ 0 := by
    rw [hch_eq]
    exact hdpos.ne'
  have hchle : hypot2 (e.x - s.x) (e.y - s.y) ≤ 2 * |r| := by
    rw [hch_eq]
    exact hle
  have hstart : (⟨c.x + |r| * Real.cos (atan2 (s.y - c.y) (s.x - c.x)),
      c.y + |r| * Real.sin (atan2 (s.y - c.y) (s.x - c.x))⟩ : Point2) = s := by
    have hx : c.x + |r| * Real.cos (Complex.arg z1) = s.x := by
      rw [hcos1]
      ring
    have hy : c.y + |r| * Real.sin (Complex.arg z1) = s.y := by
      rw [hsin1]
      ring
    calc (⟨c.x + |r| * Real.cos (atan2 (s.y - c.y) (s.x - c.x)),
        c.y + |r| * Real.sin (atan2 (s.y - c.y) (s.x - c.x))⟩ : Point2)
        = ⟨s.x, s.y⟩ := by
          rw [show atan2 (s.y - c.y) (s.x - c.x) = Complex.arg z1 from rfl, hx, hy]
      _ = s := rfl
  have hang : atan2 (s.y - c.y) (s.x - c.x) + arcAngleSpan s e c r =
      Complex.arg z2 + (k : ℝ) * (2 * π) := by
    rw [hspan, show atan2 (e.y - c.y) (e.x - c.x) = Complex.arg z2 from rfl,
      show atan2 (s.y - c.y) (s.x - c.x) = Complex.arg z1 from rfl]
    ring
  have hend : (⟨c.x + |r| * Real.cos (atan2 (s.y - c.y) (s.x - c.x) + arcAngleSpan s e c r),
      c.y + |r| * Real.sin (atan2 (s.y - c.y) (s.x - c.x) + arcAngleSpan s e c r)⟩ :
        Point2) = e := by
    have hx : c.x + |r| * Real.cos (Complex.arg z2) = e.x := by
      rw [hcos2]
      ring
    have hy : c.y + |r| * Real.sin (Complex.arg z2) = e.y := by
      rw [hsin2]
      ring
    calc (⟨c.x + |r| * Real.cos (atan2 (s.y - c.y) (s.x - c.x) + arcAngleSpan s e c r),
        c.y + |r| * Real.sin (atan2 (s.y - c.y) (s.x - c.x) + arcAngleSpan s e c r)⟩ :
          Point2)
        = ⟨c.x + |r| * Real.cos (Complex.arg z2 + (k : ℝ) * (2 * π)),
           c.y + |r| * Real.sin (Complex.arg z2 + (k : ℝ) * (2 * π))⟩ := by rw [hang]
      _ = ⟨c.x + |r| * Real.cos (Complex.arg z2), c.y + |r| * Real.sin (Complex.arg z2)⟩ := by
          rw [Real.cos_add_int_mul_two_pi, Real.sin_add_int_mul_two_pi]
      _ = ⟨e.x, e.y⟩ := by rw [hx, hy]
      _ = e := rfl
  have hlen : |arcAngleSpan s e c r| * |r| = segLength (.arc s e r) := by
    rw [segLength, if_neg hr]
    dsimp only
    rw [if_neg hchne, habs,
      show hypot2 (e.x - s.x) (e.y - s.y) =
        Real.sqrt ((e.x - s.x) ^ 2 + (e.y - s.y) ^ 2) from rfl]
    ring
  refine ⟨hstart, hend, hlen, ?_⟩
  rw [hlen]
  exact segLength_pos _ ⟨hr, hchne, hchle⟩

lemma positionWalk_zero (lastEnd : Point2) (seg : Segment) (rest : List Segment)
    (hv : ValidSeg seg) :
    positionWalk lastEnd (seg :: rest) 0 = segStart seg := by
  cases seg with
  | line s e =>
    simp only [positionWalk, segStart]
    rw [if_pos (hypot2_nonneg _ _)]
    have ht : (if hypot2 (e.x - s.x) (e.y - s.y) = 0 then (0 : ℝ)
        else 0 / hypot2 (e.x - s.x) (e.y - s.y)) = 0 := by
      split
      · rfl
      · exact zero_div _
    rw [ht]
    calc (⟨s.x + (e.x - s.x) * 0, s.y + (e.y - s.y) * 0⟩ : Point2)
        = ⟨s.x, s.y⟩ := by rw [mul_zero, mul_zero, add_zero, add_zero]
      _ = s := rfl
  | arc s e r =>
    obtain ⟨hr, hch, hle⟩ := hv
    obtain ⟨c, hc⟩ := arcCenter_isSome s e r hr hch hle
    obtain ⟨hstart, hend, hlen, hpos⟩ := arc_walk_facts s e r c hr hc
    simp only [positionWalk, segStart]
    rw [if_neg hr, hc]
    dsimp only
    rw [if_pos hpos.le]
    have ht : (if |arcAngleSpan s e c r| * |r| = 0 then (0 : ℝ)
        else 0 / (|arcAngleSpan s e c r| * |r|)) = 0 := by
      split
      · rfl
      · exact zero_div _
    rw [ht, show atan2 (s.y - c.y) (s.x - c.x) + arcAngleSpan s e c r * 0 =
      atan2 (s.y - c.y) (s.x - c.x) from by ring]
    exact hstart

lemma positionWalk_total (lastEnd : Point2) (seg : Segment) (rest : List Segment)
    (hv : ValidSeg seg) (hvr : ∀ sg ∈ rest, ValidSeg sg) :
    positionWalk lastEnd (seg :: rest) (((seg :: rest).map segLength).sum) =
      segEnd ((seg :: rest).getLast (List.cons_ne_nil _ _)) := by
  induction rest generalizing lastEnd seg with
  | nil =>
    cases seg with
    | line s e =>
      have hL : ValidSeg (Segment.line s e) = (hypot2 (e.x - s.x) (e.y - s.y) ≠ 0) := rfl
      rw [hL] at hv
      simp only [positionWalk, segLength, List.map_cons, List.map_nil, List.sum_cons,
        List.sum_nil, add_zero, List.getLast_singleton, segEnd]
      rw [if_pos le_rfl, if_neg hv, div_self hv]
      calc (⟨s.x + (e.x - s.x) * 1, s.y + (e.y - s.y) * 1⟩ : Point2)
          = ⟨e.x, e.y⟩ := by
            rw [show s.x + (e.x - s.x) * 1 = e.x from by ring,
              show s.y + (e.y - s.y) * 1 = e.y from by ring]
        _ = e := rfl
    | arc s e r =>
      obtain ⟨hr, hch, hle⟩ := hv
      obtain ⟨c, hc⟩ := arcCenter_isSome s e r hr hch hle
      obtain ⟨hstart, hend, hlen, hpos⟩ := arc_walk_facts s e r c hr hc
      simp only [positionWalk, List.map_cons, List.map_nil, List.sum_cons, List.sum_nil,
        add_zero, List.getLast_singleton, segEnd]
      rw [if_neg hr, hc]
      dsimp only
      rw [← hlen, if_pos le_rfl, if_neg hpos.ne', div_self hpos.ne', mul_one]
      exact hend
  | cons b rest ih =>
    have hS : 0 < ((b :: rest).map segLength).sum := by
      refine List.sum_pos _ ?_ (by simp)
      intro x hx
      obtain ⟨sg, hsg, rfl⟩ := List.mem_map.mp hx
      exact segLength_pos sg (hvr sg hsg)
    have hsum : ((seg :: b :: rest).map segLength).sum =
        segLength seg + ((b :: rest).map segLength).sum := by
      simp [List.map_cons, List.sum_cons]
    have hrec := ih lastEnd b (hvr b (by simp)) (fun sg hsg => hvr sg (by simp [hsg]))
    have hlast : (seg :: b :: rest).getLast (List.cons_ne_nil _ _) =
        (b :: rest).getLast (List.cons_ne_nil _ _) :=
      List.getLast_cons (List.cons_ne_nil _ _)
    rw [hsum, hlast]
    cases seg with
    | line s e =>
      simp only [positionWalk, segLength]
      rw [if_neg (not_le.mpr (lt_add_of_pos_right _ hS)), add_sub_cancel_left]
      exact hrec
    | arc s e r =>
      obtain ⟨hr, hch, hle⟩ := hv
      obtain ⟨c, hc⟩ := arcCenter_isSome s e r hr hch hle
      obtain ⟨hstart, hend, hlen, hpos⟩ := arc_walk_facts s e r c hr hc
      simp only [positionWalk]
      rw [if_neg hr, hc]
      dsimp only
      rw [← hlen, if_neg (not_le.mpr (lt_add_of_pos_right _ hS)), add_sub_cancel_left]
      exact hrec

/-- C1: for every valid (non-degenerate) axis — a nonempty segment list in
which every line has a non-zero chord and every arc has a non-zero radius and a
non-zero chord not exceeding the diameter — `getPositionAtLength` at length `0`
returns the start point of the first segment, and at length
`computeAxisTotalLength axis` returns the end point of the last segment. -/
theorem C1_endpoint_identity (axis : List Segment) (hne : axis ≠ [])
    (hv : ∀ seg ∈ axis, ValidSeg seg) :
    getPositionAtLength axis 0 = segStart (axis.head hne) ∧
    getPositionAtLength axis (computeAxisTotalLength axis) =
      segEnd (axis.getLast hne) := by
  cases axis with
  | nil => exact absurd rfl hne
  | cons seg rest =>
    have hlast : (seg :: rest).getLast? = some ((seg :: rest).getLast (List.cons_ne_nil _ _)) :=
      List.getLast?_eq_getLast _ _
    constructor
    · rw [getPositionAtLength, hlast]
      exact positionWalk_zero _ seg rest (hv seg (by simp))
    · rw [getPositionAtLength, hlast, computeAxisTotalLength_eq_sum]
      exact positionWalk_total _ seg rest (hv seg (by simp))
        (fun sg hsg => hv sg (by simp [hsg]))

theorem C1_endpoint_identity_witness :
    (([Segment.line ⟨0, 0⟩ ⟨3, 4⟩] : List Segment) ≠ [] ∧
      (∀ seg ∈ ([Segment.line ⟨0, 0⟩ ⟨3, 4⟩] : List Segment), ValidSeg seg)) ∧
    getPositionAtLength [Segment.line ⟨0, 0⟩ ⟨3, 4⟩] 0 = ⟨0, 0⟩ ∧
    getPositionAtLength [Segment.line ⟨0, 0⟩ ⟨3, 4⟩]
      (computeAxisTotalLength [Segment.line ⟨0, 0⟩ ⟨3, 4⟩]) = ⟨3, 4⟩ := by
  have hne : ([Segment.line ⟨0, 0⟩ ⟨3, 4⟩] : List Segment) ≠ [] := by simp
  have hv : ∀ seg ∈ ([Segment.line ⟨0, 0⟩ ⟨3, 4⟩] : List Segment), ValidSeg seg := by
    intro seg hm
    rw [List.mem_singleton] at hm
    subst hm
    show hypot2 ((3 : ℝ) - 0) ((4 : ℝ) - 0) ≠ 0
    rw [hypot2, Real.sqrt_ne_zero']
    norm_num
  obtain ⟨h0, h1⟩ := C1_endpoint_identity [Segment.line ⟨0, 0⟩ ⟨3, 4⟩] hne hv
  exact ⟨⟨hne, hv⟩, h0, h1⟩

end TunnelDesigner
